import Mathlib

/-!
# MakeFarm: the chunk subsystem

A shallow embedding of `src/MakeFarm/src/World/Chunks/Chunk.cpp` and of the
collaborators it calls, of the loop body of `BlockMap::parseDirectory`
(`src/MakeFarm/src/World/Block/BlockMap.cpp`), of the fixed-update loop of
`src/MakeFarm/src/Game.cpp` and of the block edits and water flags of
`src/MakeFarm/src/Player/Player.cpp`, followed by theorems about the embedded
functions.

Conventions of the embedding

* C++ `int` is a 32-bit two's-complement integer: coordinate arithmetic is done
  on `Int` and wrapped by `wrapInt`; the microseconds of `sf::Time` are wrapped to
  64 bits by `wrapInt64`.
* A loop without a bound known beforehand takes a number of iterations it may use
  (fuel) and returns nothing when that number does not suffice.
* `float` arithmetic is taken exactly, over `Rat`.
* A member function that can throw, or that indexes the block array, returns
  `Except Fault _`.
* Member functions that mutate the chunk return the new chunk; the observable
  actions are appended to `Chunk.mEvents` in program order.
-/

namespace MakeFarm

/-! ## Integers and coordinates -/

/-- The value of a C++ `int` expression whose mathematical value is `n`:
32-bit two's-complement wrap-around. -/
def wrapInt (n : Int) : Int := (n + 2147483648) % 4294967296 - 2147483648

/-- The values an `int` can hold. -/
def isInt32 (n : Int) : Prop := -2147483648 ≤ n ∧ n < 2147483648

instance (n : Int) : Decidable (isInt32 n) := by unfold isInt32; infer_instance

/-- Modelled from the spec: `Block::Coordinate` (declared in a header that is not
among the available sources), "an integer 3-vector in block units" that
"supports arithmetic"; the components are C++ `int`s. -/
structure Coordinate where
  x : Int
  y : Int
  z : Int
deriving DecidableEq, Repr

/-- All three components are representable `int`s. -/
def Coordinate.isRepresentable (c : Coordinate) : Prop :=
  isInt32 c.x ∧ isInt32 c.y ∧ isInt32 c.z

instance (c : Coordinate) : Decidable c.isRepresentable := by
  unfold Coordinate.isRepresentable; infer_instance

/-- Component-wise `operator+` on `int`s. -/
instance : Add Coordinate :=
  ⟨fun a b => ⟨wrapInt (a.x + b.x), wrapInt (a.y + b.y), wrapInt (a.z + b.z)⟩⟩

/-- Component-wise `operator-` on `int`s. -/
instance : Sub Coordinate :=
  ⟨fun a b => ⟨wrapInt (a.x - b.x), wrapInt (a.y - b.y), wrapInt (a.z - b.z)⟩⟩

/-! ## Enumerations -/

/-- Modelled from the spec: `enum class Direction` (`Utils/Direction.h`, not among
the available sources). The six axis directions are the ones named by
`Chunk::localNearbyBlockPosition`; `None` and `Counter` are the two bracketing
enumerators used by the loop of `Chunk::rebuildChunksAround`. -/
inductive Direction where
  | None
  | Above
  | Below
  | ToTheLeft
  | ToTheRight
  | InFront
  | Behind
  | Counter
deriving DecidableEq, Repr

/-- Modelled from the spec: `enum class Block::Face` (`Block.h`, not among the
available sources): six faces followed by the `Counter` enumerator, in the order
of the `switch` of `Chunk::doesBlockFaceHasTransparentNeighbor`. -/
inductive Face where
  | Top
  | Left
  | Right
  | Bottom
  | Front
  | Back
  | Counter
deriving DecidableEq, Repr

/-- The underlying integer of a face, `static_cast<int>(face)`. -/
def Face.toIndex : Face → Nat
  | .Top => 0
  | .Left => 1
  | .Right => 2
  | .Bottom => 3
  | .Front => 4
  | .Back => 5
  | .Counter => 6

/-- The face of an integer in `[0, Counter)`, `static_cast<Block::Face>(i)`;
every other integer is not one of the six faces and is sent to `Counter`. -/
def Face.ofIndex : Nat → Face
  | 0 => .Top
  | 1 => .Left
  | 2 => .Right
  | 3 => .Bottom
  | 4 => .Front
  | 5 => .Back
  | _ => .Counter

/-- The six faces of a block (every enumerator but `Counter`). -/
def Face.isSupported (f : Face) : Prop := f ≠ Face.Counter

instance (f : Face) : Decidable f.isSupported := by
  unfold Face.isSupported; infer_instance

/-- The direction a face looks at: the pairing made by the `switch` of
`Chunk::doesBlockFaceHasTransparentNeighbor`. -/
def Face.direction : Face → Option Direction
  | .Top => some .Above
  | .Left => some .ToTheLeft
  | .Right => some .ToTheRight
  | .Bottom => some .Below
  | .Front => some .InFront
  | .Back => some .Behind
  | .Counter => none

/-! ## Blocks and their catalog -/

/-- Static properties of a block type, as `BlockMap::parseDirectory` fills them. -/
structure BlockType where
  transparent : Bool
  collidable : Bool
  textureId : Face → Nat

/-- The block catalog `BlockMap::blockMap()`, read-only at run time: block type
identifier to static properties. -/
abbrev BlockMap := String → BlockType

/-- Modelled from the spec: `Block` (`Block.h`/`Block.cpp` are not among the
available sources): a cell that "owns a block-type identifier (mutable)" and
"derives transparency/collidability/texture-per-face from the BlockTypeCatalog
by identifier lookup". -/
structure Block where
  mBlockId : String
deriving DecidableEq, Repr

/-- The identifier of the block type, `Block::blockId()`. -/
def Block.blockId (b : Block) : String := b.mBlockId

/-- Change the type of the block in place, `Block::setBlockType(name)`. -/
def Block.setBlockType (_b : Block) (name : String) : Block := ⟨name⟩

/-- Transparency by catalog lookup, `Block::isTransparent()`. -/
def Block.isTransparent (blockMap : BlockMap) (b : Block) : Bool :=
  (blockMap b.mBlockId).transparent

/-- Texture of one face by catalog lookup, `Block::blockTextureId(face)`. -/
def Block.blockTextureId (blockMap : BlockMap) (b : Block) (f : Face) : Nat :=
  (blockMap b.mBlockId).textureId f

/-! ## Collaborators of a chunk -/

/-- What can go wrong inside a member function. -/
inductive Fault where
  /-- The function threw `std::runtime_error(what)`. -/
  | runtimeError (what : String)
  /-- The function applied `operator[]` to the block array with an index outside
  the array (nothing in the source checks it): undefined behaviour. -/
  | uncheckedArrayAccess
deriving DecidableEq, Repr

/-- The texture atlas, `TexturePack::normalizedCoordinates(textureId)`. -/
structure TexturePack where
  normalizedCoordinates : Nat → List Rat

/-- One quad handed to `MeshBuilder::addQuad(face, textureCoordinates, position)`. -/
structure Quad where
  face : Face
  textureCoordinates : List Rat
  position : Coordinate
deriving DecidableEq

/-- Modelled from the spec: `MeshBuilder` (not among the available sources), a
"stateful accumulator: `addQuad` appends one quad", "`resetMesh()` clears all
accumulated geometry". -/
structure MeshBuilder where
  quads : List Quad

/-- Append one quad. -/
def MeshBuilder.addQuad (m : MeshBuilder) (face : Face) (tex : List Rat)
    (pos : Coordinate) : MeshBuilder :=
  ⟨m.quads ++ [⟨face, tex, pos⟩]⟩

/-- Drop the geometry accumulated so far. -/
def MeshBuilder.resetMesh (_m : MeshBuilder) : MeshBuilder := ⟨[]⟩

/-- A chunk handle as the container hands it out (`std::shared_ptr<Chunk>`):
absent, or the slot of the chunk in the container. -/
abbrev ChunkHandle := Option Nat

/-- The part of `ChunkContainer` that `Chunk.cpp` calls. `ChunkContainer.cpp` is
not among the available sources, so both member functions are parameters.
`worldBlock` gives the block at a global coordinate, absent when no loaded chunk
owns it; `findChunk` is applied to the chunk itself, identified here by its
origin. -/
structure ChunkContainer where
  worldBlock : Coordinate → Option Block
  findChunk : Coordinate → ChunkHandle

/-- The observable actions of the member functions of a chunk. -/
inductive Event where
  /-- The guard `mChunkAccessMutex` was acquired. -/
  | guardAcquired
  /-- The cell at the local coordinate was given the block type. -/
  | cellWritten (localCoordinates : Coordinate) (blockType : String)
  /-- The guard `mChunkAccessMutex` was released. -/
  | guardReleased
  /-- The call `mChunkManager->rebuildFast(handle)`. -/
  | managerRebuildFast (handle : ChunkHandle)
  /-- The call `mChunkManager->rebuildSlow(handle)`. -/
  | managerRebuildSlow (handle : ChunkHandle)
deriving DecidableEq, Repr

/-- The compile-time constants of `Chunk.h` (not among the available sources):
the number of blocks of a chunk along each axis. -/
structure ChunkDimensions where
  BLOCKS_PER_X_DIMENSION : Nat
  BLOCKS_PER_Y_DIMENSION : Nat
  BLOCKS_PER_Z_DIMENSION : Nat
  /-- The three constants are values of type `int`. -/
  areInts : BLOCKS_PER_X_DIMENSION < 2147483648 ∧ BLOCKS_PER_Y_DIMENSION < 2147483648 ∧
    BLOCKS_PER_Z_DIMENSION < 2147483648

/-- The contents of the block array `*mChunkOfBlocks`: the block stored at
`[x][y][z]`. Only the cells inside the array are ever read: see
`ChunkBlocks.index`. -/
abbrev ChunkBlocks := Coordinate → Block

/-- The chunk: `class Chunk`. `mChunkManager` records only whether a manager is
attached; the calls made to it are recorded in `mEvents`. -/
structure Chunk where
  mChunkPosition : Coordinate
  mTexturePack : TexturePack
  mParentContainer : Option ChunkContainer
  mMeshBuilder : MeshBuilder
  mChunkOfBlocks : ChunkBlocks
  mChunkManager : Bool
  mEvents : List Event

/-! ## `Chunk.cpp` -/

/-- The source function `Chunk::areLocalCoordinatesInsideChunk`. -/
def areLocalCoordinatesInsideChunk (d : ChunkDimensions) (localCoordinates : Coordinate) :
    Bool :=
  if localCoordinates.x < d.BLOCKS_PER_X_DIMENSION ∧ localCoordinates.x ≥ 0 ∧
     localCoordinates.y < d.BLOCKS_PER_Y_DIMENSION ∧ localCoordinates.y ≥ 0 ∧
     localCoordinates.z < d.BLOCKS_PER_Z_DIMENSION ∧ localCoordinates.z ≥ 0 then
    true
  else
    false

/-- The expression `(*mChunkOfBlocks)[c.x][c.y][c.z]`. The array has
`BLOCKS_PER_X_DIMENSION` by `BLOCKS_PER_Y_DIMENSION` by `BLOCKS_PER_Z_DIMENSION`
cells; `operator[]` itself checks nothing, so an index outside the array has no
defined result. -/
def ChunkBlocks.index (d : ChunkDimensions) (blocks : ChunkBlocks) (c : Coordinate) :
    Except Fault Block :=
  if 0 ≤ c.x ∧ c.x < d.BLOCKS_PER_X_DIMENSION ∧ 0 ≤ c.y ∧ c.y < d.BLOCKS_PER_Y_DIMENSION ∧
     0 ≤ c.z ∧ c.z < d.BLOCKS_PER_Z_DIMENSION then
    .ok (blocks c)
  else
    .error .uncheckedArrayAccess

/-- The assignment to `(*mChunkOfBlocks)[c.x][c.y][c.z]`: the array with the cell
at `c` replaced. -/
def ChunkBlocks.set (blocks : ChunkBlocks) (c : Coordinate) (b : Block) : ChunkBlocks :=
  fun c' => if c' = c then b else blocks c'

/-- The source function `Chunk::localBlock`: the guard is taken and the array is
indexed; the coordinate is not examined first. -/
def Chunk.localBlock (d : ChunkDimensions) (ch : Chunk) (localCoordinates : Coordinate) :
    Except Fault Block :=
  ChunkBlocks.index d ch.mChunkOfBlocks localCoordinates

/-- The source function `Chunk::localNearbyBlockPosition`. -/
def localNearbyBlockPosition (position : Coordinate) (direction : Direction) :
    Except Fault Coordinate :=
  match direction with
  | .Above => .ok ⟨position.x, wrapInt (position.y + 1), position.z⟩
  | .Below => .ok ⟨position.x, wrapInt (position.y - 1), position.z⟩
  | .ToTheLeft => .ok ⟨wrapInt (position.x - 1), position.y, position.z⟩
  | .ToTheRight => .ok ⟨wrapInt (position.x + 1), position.y, position.z⟩
  | .InFront => .ok ⟨position.x, position.y, wrapInt (position.z + 1)⟩
  | .Behind => .ok ⟨position.x, position.y, wrapInt (position.z - 1)⟩
  | _ => .error (.runtimeError "Unsupported Direction value was provided")

/-- The source function `Chunk::localNearbyBlock`: the position
`localNearbyBlockPosition` returns is handed to `localBlock` as it is. -/
def Chunk.localNearbyBlock (d : ChunkDimensions) (ch : Chunk) (localCoordinates : Coordinate)
    (direction : Direction) : Except Fault Block :=
  match localNearbyBlockPosition localCoordinates direction with
  | .error e => .error e
  | .ok position => ch.localBlock d position

/-- The source function `Chunk::globalToLocalCoordinates`. -/
def Chunk.globalToLocalCoordinates (ch : Chunk) (worldCoordinates : Coordinate) :
    Coordinate :=
  worldCoordinates - ch.mChunkPosition

/-- The source function `Chunk::localToGlobalCoordinates`. -/
def Chunk.localToGlobalCoordinates (ch : Chunk) (localCoordinates : Coordinate) :
    Coordinate :=
  ch.mChunkPosition + localCoordinates

/-- The source function `Chunk::belongsToAnyChunkContainer`. -/
def Chunk.belongsToAnyChunkContainer (ch : Chunk) : Bool :=
  ch.mParentContainer.isSome

/-- The lambda `isBlockTransparent` of
`Chunk::doesBlockFaceHasTransparentNeighbor`. -/
def Chunk.isBlockTransparent (d : ChunkDimensions) (blockMap : BlockMap) (ch : Chunk)
    (blockPos : Coordinate) (face : Direction) : Except Fault Bool :=
  match localNearbyBlockPosition blockPos face with
  | .error e => .error e
  | .ok blockNeighborPosition =>
    if areLocalCoordinatesInsideChunk d blockNeighborPosition then
      match ch.localBlock d blockNeighborPosition with
      | .error e => .error e
      | .ok b => .ok (b.isTransparent blockMap)
    else if ch.belongsToAnyChunkContainer then
      match ch.mParentContainer with
      | some parent =>
        match parent.worldBlock (ch.localToGlobalCoordinates blockNeighborPosition) with
        | some neighborBlock => .ok (neighborBlock.isTransparent blockMap)
        | none => .ok true
      | none => .ok true
    else
      .ok true

/-- The source function `Chunk::doesBlockFaceHasTransparentNeighbor`. -/
def Chunk.doesBlockFaceHasTransparentNeighbor (d : ChunkDimensions) (blockMap : BlockMap)
    (ch : Chunk) (blockFace : Face) (blockPos : Coordinate) : Except Fault Bool :=
  match blockFace with
  | .Top => ch.isBlockTransparent d blockMap blockPos .Above
  | .Left => ch.isBlockTransparent d blockMap blockPos .ToTheLeft
  | .Right => ch.isBlockTransparent d blockMap blockPos .ToTheRight
  | .Bottom => ch.isBlockTransparent d blockMap blockPos .Below
  | .Front => ch.isBlockTransparent d blockMap blockPos .InFront
  | .Back => ch.isBlockTransparent d blockMap blockPos .Behind
  | _ => .error (.runtimeError "Unsupported Block::Face value was provided")

/-- The source function `Chunk::isLocalCoordinateOnChunkEdge`. -/
def isLocalCoordinateOnChunkEdge (d : ChunkDimensions) (localCoordinates : Coordinate) :
    Bool :=
  if localCoordinates.x = (d.BLOCKS_PER_X_DIMENSION : Int) - 1 ∨ localCoordinates.x = 0 ∨
     localCoordinates.y = (d.BLOCKS_PER_Y_DIMENSION : Int) - 1 ∨ localCoordinates.y = 0 ∨
     localCoordinates.z = (d.BLOCKS_PER_Z_DIMENSION : Int) - 1 ∨ localCoordinates.z = 0 then
    true
  else
    false

/-- The source function `Chunk::directionOfBlockFacesInContactWithOtherChunk`:
six independent tests, each appending one direction. -/
def directionOfBlockFacesInContactWithOtherChunk (d : ChunkDimensions)
    (localCoordinates : Coordinate) : List Direction :=
  let directions : List Direction := []
  let directions :=
    if localCoordinates.x = (d.BLOCKS_PER_X_DIMENSION : Int) - 1 then
      directions ++ [Direction.ToTheRight] else directions
  let directions :=
    if localCoordinates.x = 0 then directions ++ [Direction.ToTheLeft] else directions
  let directions :=
    if localCoordinates.y = (d.BLOCKS_PER_Y_DIMENSION : Int) - 1 then
      directions ++ [Direction.Above] else directions
  let directions :=
    if localCoordinates.y = 0 then directions ++ [Direction.Below] else directions
  let directions :=
    if localCoordinates.z = (d.BLOCKS_PER_Z_DIMENSION : Int) - 1 then
      directions ++ [Direction.InFront] else directions
  let directions :=
    if localCoordinates.z = 0 then directions ++ [Direction.Behind] else directions
  directions

/-- The source function `Chunk::rebuildSlow`. -/
def Chunk.rebuildSlow (ch : Chunk) : Chunk :=
  if ch.mChunkManager = true ∧ ch.mParentContainer.isSome = true then
    match ch.mParentContainer with
    | some parent =>
      let thisChunk := parent.findChunk ch.mChunkPosition
      { ch with mEvents := ch.mEvents ++ [Event.managerRebuildSlow thisChunk] }
    | none => ch
  else
    ch

/-- The source function `Chunk::rebuildFast`. -/
def Chunk.rebuildFast (ch : Chunk) : Chunk :=
  if ch.mChunkManager = true ∧ ch.mParentContainer.isSome = true then
    match ch.mParentContainer with
    | some parent =>
      let thisChunk := parent.findChunk ch.mChunkPosition
      { ch with mEvents := ch.mEvents ++ [Event.managerRebuildFast thisChunk] }
    | none => ch
  else
    ch

/-- The source function `Chunk::removeLocalBlock`: under the guard the array is
indexed and the block found there is given the type "Air"; after the guard is
released `rebuildFast` is called. The coordinate is not examined first. -/
def Chunk.removeLocalBlock (d : ChunkDimensions) (ch : Chunk) (localCoordinates : Coordinate) :
    Except Fault Chunk :=
  match ChunkBlocks.index d ch.mChunkOfBlocks localCoordinates with
  | .error e => .error e
  | .ok block =>
    let written : Chunk :=
      { ch with
        mChunkOfBlocks := ch.mChunkOfBlocks.set localCoordinates (block.setBlockType "Air")
        mEvents := ch.mEvents ++
          [Event.guardAcquired, Event.cellWritten localCoordinates "Air", Event.guardReleased] }
    .ok written.rebuildFast

/-- The body of the `for` loop of `Chunk::createBlockMesh` for the face of index
`i`: one quad is added when the face has a transparent neighbour. -/
def Chunk.createBlockMeshFace (d : ChunkDimensions) (blockMap : BlockMap) (block : Block)
    (pos : Coordinate) (ch : Chunk) (i : Nat) : Except Fault Chunk :=
  match ch.doesBlockFaceHasTransparentNeighbor d blockMap (Face.ofIndex i) pos with
  | .error e => .error e
  | .ok true =>
    .ok { ch with
          mMeshBuilder := ch.mMeshBuilder.addQuad (Face.ofIndex i)
            (ch.mTexturePack.normalizedCoordinates
              (block.blockTextureId blockMap (Face.ofIndex i)))
            pos }
  | .ok false => .ok ch

/-- The source function `Chunk::createBlockMesh`. -/
def Chunk.createBlockMesh (d : ChunkDimensions) (blockMap : BlockMap) (ch : Chunk)
    (pos : Coordinate) : Except Fault Chunk :=
  match ch.localBlock d pos with
  | .error e => .error e
  | .ok block =>
    (List.range Face.Counter.toIndex).foldlM (Chunk.createBlockMeshFace d blockMap block pos) ch

/-- The body of the innermost `for` loop of `Chunk::prepareMesh`. -/
def Chunk.prepareMeshCell (d : ChunkDimensions) (blockMap : BlockMap) (x y : Nat) (ch : Chunk)
    (z : Nat) : Except Fault Chunk :=
  match ch.localBlock d ⟨x, y, z⟩ with
  | .error e => .error e
  | .ok block =>
    if block.blockId = "Air" then
      .ok ch
    else
      ch.createBlockMesh d blockMap ⟨x, y, z⟩

/-- The source function `Chunk::prepareMesh`: three nested `for` loops over
`[0, BLOCKS_PER_X_DIMENSION)`, `[0, BLOCKS_PER_Y_DIMENSION)` and
`[0, BLOCKS_PER_Z_DIMENSION)`. -/
def Chunk.prepareMesh (d : ChunkDimensions) (blockMap : BlockMap) (ch : Chunk) :
    Except Fault Chunk :=
  (List.range d.BLOCKS_PER_X_DIMENSION).foldlM (fun ch x =>
    (List.range d.BLOCKS_PER_Y_DIMENSION).foldlM (fun ch y =>
      (List.range d.BLOCKS_PER_Z_DIMENSION).foldlM (Chunk.prepareMeshCell d blockMap x y) ch)
      ch) ch

/-- The source function `Chunk::rebuildMesh`. -/
def Chunk.rebuildMesh (d : ChunkDimensions) (blockMap : BlockMap) (ch : Chunk) :
    Except Fault Chunk :=
  Chunk.prepareMesh d blockMap { ch with mMeshBuilder := ch.mMeshBuilder.resetMesh }

/-- What `Chunk::generateChunkTerrain` reads besides the chunk: the noise field
(`FastNoiseLite::GetNoise` of the function-local generator, configured the same
way on every call) and the constants `ChunkManager::MAX_HEIGHT_MAP` and
`Block::BLOCK_SIZE`, none of which is among the available sources. -/
structure TerrainParameters where
  noise : Rat → Rat → Rat
  MAX_HEIGHT_MAP : Rat
  BLOCK_SIZE : Rat

/-- The body of the innermost `for` loop of `Chunk::generateChunkTerrain`: the
state is the running `heightOfColumn` and the block array. -/
def generateTerrainCell (t : TerrainParameters) (x z : Nat) (state : Rat × ChunkBlocks)
    (y : Nat) : Rat × ChunkBlocks :=
  let heightOfColumn := state.1
  let blocks :=
    if heightOfColumn > 0 then
      state.2.set ⟨x, y, z⟩ ⟨"Grass"⟩
    else
      state.2.set ⟨x, y, z⟩ ⟨"Air"⟩
  (heightOfColumn - t.BLOCK_SIZE, blocks)

/-- The body of the loop over `z` of `Chunk::generateChunkTerrain`: one column. -/
def Chunk.generateTerrainColumn (d : ChunkDimensions) (t : TerrainParameters) (ch : Chunk)
    (x : Nat) (blocks : ChunkBlocks) (z : Nat) : ChunkBlocks :=
  let globalCoordinate := ch.localToGlobalCoordinates ⟨x, 0, z⟩
  let heightOfBlocks := t.noise (globalCoordinate.x : Rat) (globalCoordinate.z : Rat)
  let heightOfBlocks := (heightOfBlocks + 1) / 2
  let heightOfColumn := heightOfBlocks * t.MAX_HEIGHT_MAP
  let heightOfColumn := heightOfColumn - (globalCoordinate.y : Rat)
  ((List.range d.BLOCKS_PER_Y_DIMENSION).foldl (generateTerrainCell t x z)
    (heightOfColumn, blocks)).2

/-- The source function `Chunk::generateChunkTerrain`. -/
def Chunk.generateChunkTerrain (d : ChunkDimensions) (t : TerrainParameters) (ch : Chunk) :
    Chunk :=
  { ch with
    mChunkOfBlocks :=
      (List.range d.BLOCKS_PER_X_DIMENSION).foldl (fun blocks x =>
        (List.range d.BLOCKS_PER_Z_DIMENSION).foldl (ch.generateTerrainColumn d t x) blocks)
        ch.mChunkOfBlocks }

/-! ## `BlockMap.cpp` -/

/-- The settings of one `.cfg` file as the class `Settings` (`Utils/Settings.h`, not
among the available sources) exposes them to `BlockMap::parseDirectory`:
`isPresent(name)` and the typed readers `get<T>(name)`. -/
structure Settings where
  isPresent : String → Bool
  getString : String → String
  getTextureId : String → Nat
  getBool : String → Bool
  getInt : String → Int

/-- The record `BlockType` with every member `BlockMap::parseDirectory` assigns.
`textureId` is the map from faces to texture ids that `textureId[face] = ...`
writes to; `blockId` is the integer of the `BlockId` enumerator. -/
structure BlockTypeRecord where
  blockFileName : String
  blockName : String
  textureId : Face → Option Nat
  transparent : Bool
  collidable : Bool
  blockId : Int

/-- The assignment `blockType.textureId[blockFace] = texture`. -/
def BlockTypeRecord.setTexture (blockType : BlockTypeRecord) (blockFace : Face)
    (texture : Nat) : BlockTypeRecord :=
  { blockType with
    textureId := fun f => if f = blockFace then some texture else blockType.textureId f }

/-- The lambda `setIfPresent` of `BlockMap::parseDirectory`. -/
def setIfPresent (settingsFile : Settings) (blockType : BlockTypeRecord) (setting : String)
    (blockFace : Face) : BlockTypeRecord :=
  if settingsFile.isPresent setting then
    blockType.setTexture blockFace (settingsFile.getTextureId setting)
  else
    blockType

/-- The step "Set name" of the loop body of `BlockMap::parseDirectory`. -/
def readName (settingsFile : Settings) (blockType : BlockTypeRecord) : BlockTypeRecord :=
  if settingsFile.isPresent "Name" then
    { blockType with blockName := settingsFile.getString "Name" }
  else
    { blockType with blockName := "Unnamed Block" }

/-- The step "Set main texture" of the loop body of `BlockMap::parseDirectory`. -/
def readMainTexture (settingsFile : Settings) (blockType : BlockTypeRecord) : BlockTypeRecord :=
  if settingsFile.isPresent "Texture" then
    let generalTexture := settingsFile.getTextureId "Texture"
    (List.range Face.Counter.toIndex).foldl
      (fun blockType i => blockType.setTexture (Face.ofIndex i) generalTexture) blockType
  else
    blockType

/-- The step "Set sides" of the loop body of `BlockMap::parseDirectory`. -/
def readSides (settingsFile : Settings) (blockType : BlockTypeRecord) : BlockTypeRecord :=
  if settingsFile.isPresent "TextureSide" then
    let sideTexture := settingsFile.getTextureId "TextureSide"
    let blockType := blockType.setTexture Face.Left sideTexture
    let blockType := blockType.setTexture Face.Right sideTexture
    let blockType := blockType.setTexture Face.Front sideTexture
    blockType.setTexture Face.Back sideTexture
  else
    blockType

/-- The step "Set other texture faces" of the loop body of
`BlockMap::parseDirectory`: the six calls of `setIfPresent`. -/
def readOtherFaces (settingsFile : Settings) (blockType : BlockTypeRecord) : BlockTypeRecord :=
  let blockType := setIfPresent settingsFile blockType "TextureLeft" Face.Left
  let blockType := setIfPresent settingsFile blockType "TextureRight" Face.Right
  let blockType := setIfPresent settingsFile blockType "TextureTop" Face.Top
  let blockType := setIfPresent settingsFile blockType "TextureBottom" Face.Bottom
  let blockType := setIfPresent settingsFile blockType "TextureFront" Face.Front
  setIfPresent settingsFile blockType "TextureBack" Face.Back

/-- The step "Set other properties" of the loop body of `BlockMap::parseDirectory`,
up to and including the setting "Collidable". -/
def readOtherProperties (settingsFile : Settings) (blockType : BlockTypeRecord) :
    BlockTypeRecord :=
  let blockType :=
    if settingsFile.isPresent "Transparent" then
      { blockType with transparent := settingsFile.getBool "Transparent" }
    else
      blockType
  if settingsFile.isPresent "Collidable" then
    { blockType with collidable := settingsFile.getBool "Collidable" }
  else
    blockType

/-- The part of the loop body of `BlockMap::parseDirectory` that fills `blockType`
from one `.cfg` file, step by step in the order of the source. `fresh` is the
default-constructed `BlockType`, `fileName` the name of the file without ".cfg". -/
def readBlockType (fresh : BlockTypeRecord) (fileName : String) (settingsFile : Settings) :
    BlockTypeRecord :=
  let blockType := fresh
  let blockType := { blockType with blockFileName := fileName }
  let blockType := readName settingsFile blockType
  let blockType := readMainTexture settingsFile blockType
  let blockType := readSides settingsFile blockType
  let blockType := readOtherFaces settingsFile blockType
  readOtherProperties settingsFile blockType

/-- The catalog `mBlockMap`, from the integer of a `BlockId` to the block type stored
under it. -/
abbrev BlockCatalog := Int → Option BlockTypeRecord

/-- The loop body of `BlockMap::parseDirectory` for one `.cfg` file: the block type
is read, and stored in the catalog when the file has the setting "Id". -/
def parseBlockFile (fresh : BlockTypeRecord) (fileName : String) (settingsFile : Settings)
    (mBlockMap : BlockCatalog) : BlockCatalog :=
  let blockType := readBlockType fresh fileName settingsFile
  if settingsFile.isPresent "Id" then
    let blockId := settingsFile.getInt "Id"
    let blockType := { blockType with blockId := blockId }
    fun key => if key = blockId then some blockType else mBlockMap key
  else
    mBlockMap

/-! ## `Game.cpp` -/

/-- The value of an `sf::Int64` expression whose mathematical value is `n`: 64-bit
two's-complement wrap-around. `sf::Time` holds its microseconds in such an integer. -/
def wrapInt64 (n : Int) : Int :=
  (n + 9223372036854775808) % 18446744073709551616 - 9223372036854775808

/-- The values an `sf::Int64` can hold. -/
def isInt64 (n : Int) : Prop := -9223372036854775808 ≤ n ∧ n < 9223372036854775808

instance (n : Int) : Decidable (isInt64 n) := by unfold isInt64; infer_instance

/-- The `do ... while` loop of `Game::performFixedUpdateAtLeastMinimalNumberOfTimes`,
times in microseconds. `fuel` bounds the number of iterations; the result is the
final value of `frameTimeElapsed` and the deltas passed to `fixedUpdate`, in order,
or nothing when the fuel ran out before the loop was left. -/
def fixedUpdateLoop (MINIMAL_TIME_PER_FIXED_UPDATE : Int) :
    Nat → Int → List Int → Option (Int × List Int)
  | 0, _, _ => none
  | fuel + 1, frameTimeElapsed, deltas =>
    let frameTimeElapsed := wrapInt64 (frameTimeElapsed - MINIMAL_TIME_PER_FIXED_UPDATE)
    let deltas := deltas ++ [MINIMAL_TIME_PER_FIXED_UPDATE]
    if frameTimeElapsed > MINIMAL_TIME_PER_FIXED_UPDATE then
      fixedUpdateLoop MINIMAL_TIME_PER_FIXED_UPDATE fuel frameTimeElapsed deltas
    else
      some (frameTimeElapsed, deltas)

/-- The source function `Game::performFixedUpdateAtLeastMinimalNumberOfTimes`; the
result is the value left in the reference parameter `frameTimeElapsed` and the
deltas passed to `fixedUpdate`, in order. -/
def performFixedUpdateAtLeastMinimalNumberOfTimes (MINIMAL_TIME_PER_FIXED_UPDATE : Int)
    (fuel : Nat) (frameTimeElapsed : Int) : Option (Int × List Int) :=
  if frameTimeElapsed > MINIMAL_TIME_PER_FIXED_UPDATE then
    fixedUpdateLoop MINIMAL_TIME_PER_FIXED_UPDATE fuel frameTimeElapsed []
  else
    some (frameTimeElapsed, [frameTimeElapsed])

/-- The loop of `Game::run` over the values `clock.restart()` returns while the game
is running: each iteration overwrites `frameTimeElapsed` with the next value and
calls `performFixedUpdateAtLeastMinimalNumberOfTimes` on it. The result is the final
`frameTimeElapsed` and the deltas passed to `fixedUpdate` over the whole run. -/
def Game.run (MINIMAL_TIME_PER_FIXED_UPDATE : Int) (fuel : Nat) :
    List Int → Int → List Int → Option (Int × List Int)
  | [], frameTimeElapsed, deltas => some (frameTimeElapsed, deltas)
  | restarted :: later, _, deltas =>
    let frameTimeElapsed := restarted
    match performFixedUpdateAtLeastMinimalNumberOfTimes MINIMAL_TIME_PER_FIXED_UPDATE fuel
        frameTimeElapsed with
    | none => none
    | some (frameTimeElapsed, passed) =>
      Game.run MINIMAL_TIME_PER_FIXED_UPDATE fuel later frameTimeElapsed (deltas ++ passed)

/-! ## `Player.cpp` -/

/-- Modelled from the spec: `enum class BlockId` (not among the available sources), the
"block-type identifier" in the form `Player.cpp` uses: the enumerators it names, and
every other enumerator by its integer. -/
inductive BlockId where
  | Dirt
  | Water
  | other (value : Int)
deriving DecidableEq, Repr

/-- A vector of three `float`s (`sf::Vector3f`, `glm::vec3`), taken exactly. -/
structure Vector3f where
  x : Rat
  y : Rat
  z : Rat
deriving DecidableEq

/-- The enumeration `AABB::RelativeTo`, with the two enumerators `Player.cpp` names. -/
inductive RelativeTo where
  | LeftBottomBack
  | BottomCenter
deriving DecidableEq, Repr

/-- The class `AABB` (not among the available sources) as `Player.cpp` sets it up: the
size given to the constructor, and the position and the anchor given to the last
`updatePosition`. -/
structure AABB where
  mCollisionBoxSize : Vector3f
  mPosition : Vector3f
  mRelativeTo : RelativeTo
deriving DecidableEq

/-- The constructor `AABB(size)`; the box has no position of its own until
`updatePosition` gives it one. -/
def AABB.ofSize (size : Vector3f) : AABB := ⟨size, ⟨0, 0, 0⟩, RelativeTo.LeftBottomBack⟩

/-- The member function `AABB::collisionBoxSize`. -/
def AABB.collisionBoxSize (aabb : AABB) : Vector3f := aabb.mCollisionBoxSize

/-- The member function `AABB::updatePosition(position, relativeTo)`. -/
def AABB.updatePosition (aabb : AABB) (position : Vector3f) (relativeTo : RelativeTo) : AABB :=
  { aabb with mPosition := position, mRelativeTo := relativeTo }

/-- The part of `HighlightedBlock` (not among the available sources) that
`Player.cpp` reads from `mSelectedBlock`. -/
structure HighlightedBlock where
  isAnyBlockHighlighted : Bool
  blockPosition : Coordinate
  blockFace : Face

/-- The calls `Player.cpp` makes on `mChunkManager.chunks()`. -/
inductive WorldEdit where
  /-- The call `removeWorldBlock(coordinates)`. -/
  | removeWorldBlock (coordinates : Coordinate)
  /-- The call `tryToPlaceBlock(blockId, coordinates, blocksThatMightBeOverplaced)`. -/
  | tryToPlaceBlock (blockId : BlockId) (coordinates : Coordinate)
      (blocksThatMightBeOverplaced : List BlockId)
deriving DecidableEq

/-- The constants and functions `Player.cpp` uses whose definitions are not among
the available sources: `Block::BLOCK_SIZE`, the constants of `Player.h`, the constant
`HighlightedBlock::BLOCKS_THAT_MIGHT_BE_OVERPLACED`, `Block::directionOfFace`,
`Block::Coordinate::coordinateInGivenDirection`, `Block::Coordinate::nonBlockMetric`
and `AABB::intersect`. -/
structure PlayerEnvironment where
  BLOCK_SIZE : Rat
  PLAYER_HEIGHT : Rat
  PLAYER_EYES_LEVEL : Rat
  BLOCKS_THAT_MIGHT_BE_OVERPLACED : List BlockId
  directionOfFace : Face → Direction
  coordinateInGivenDirection : Coordinate → Direction → Coordinate
  nonBlockMetric : Coordinate → Vector3f
  intersect : AABB → AABB → Bool

/-- The class `Player`: the members the embedded functions read or write.
`mWorldEdits` records the calls made on `mChunkManager.chunks()`, in order. -/
structure Player where
  mPosition : Vector3f
  mAABB : AABB
  mSelectedBlock : HighlightedBlock
  mIsPlayerInWater : Bool
  mArePlayerEyesInWater : Bool
  mWorldEdits : List WorldEdit

/-- The source function `Player::collisionBox`. -/
def Player.collisionBox (player : Player) : AABB := player.mAABB

/-- The source function `Player::doesItCollideWithGivenNonAirBlock`.
`nonAirBlocksItTouches` is `chunkContainer.nonAirBlocksItTouches`
(`ChunkContainer.cpp` is not among the available sources), each returned block given
by its `blockId()`, the one member the lambda reads. -/
def Player.doesItCollideWithGivenNonAirBlock (_player : Player) (aabb : AABB)
    (nonAirBlocksItTouches : AABB → List BlockId) (blockId : BlockId) : Bool :=
  let nonAirBlocksPlayerTouched := nonAirBlocksItTouches aabb
  nonAirBlocksPlayerTouched.any fun block => block = blockId

/-- The source function `Player::aabbHeadAboveEyes`. -/
def Player.aabbHeadAboveEyes (env : PlayerEnvironment) (player : Player) : AABB :=
  let collisionBoxSize := player.mAABB.collisionBoxSize
  let collisionBoxSize := { collisionBoxSize with y := env.PLAYER_EYES_LEVEL }
  let position := player.mPosition
  let position := { position with y := position.y + (env.PLAYER_HEIGHT - env.PLAYER_EYES_LEVEL) }
  let aabb := AABB.ofSize collisionBoxSize
  aabb.updatePosition position RelativeTo.BottomCenter

/-- The source function `Player::doesPlayerTouchesWater`. -/
def Player.doesPlayerTouchesWater (player : Player)
    (nonAirBlocksItTouches : AABB → List BlockId) : Bool :=
  player.doesItCollideWithGivenNonAirBlock player.collisionBox nonAirBlocksItTouches
    BlockId.Water

/-- The source function `Player::updateInformationIfPlayersEyesAreInWater`. -/
def Player.updateInformationIfPlayersEyesAreInWater (env : PlayerEnvironment) (player : Player)
    (nonAirBlocksItTouches : AABB → List BlockId) : Player :=
  { player with
    mArePlayerEyesInWater :=
      player.doesItCollideWithGivenNonAirBlock (player.aabbHeadAboveEyes env)
        nonAirBlocksItTouches BlockId.Water }

/-- The source function `Player::updateInformationIfPlayerIsInWater`. -/
def Player.updateInformationIfPlayerIsInWater (env : PlayerEnvironment) (player : Player)
    (nonAirBlocksItTouches : AABB → List BlockId) : Player :=
  if player.doesPlayerTouchesWater nonAirBlocksItTouches then
    let player := { player with mIsPlayerInWater := true }
    player.updateInformationIfPlayersEyesAreInWater env nonAirBlocksItTouches
  else
    let player := { player with mIsPlayerInWater := false }
    { player with mArePlayerEyesInWater := false }

/-- The source function `Player::tryDestroyBlock`. -/
def Player.tryDestroyBlock (player : Player) : Player :=
  if player.mSelectedBlock.isAnyBlockHighlighted then
    { player with
      mWorldEdits := player.mWorldEdits ++
        [WorldEdit.removeWorldBlock player.mSelectedBlock.blockPosition] }
  else
    player

/-- The source function `Player::doesPlayerCollideWithBlock`. -/
def Player.doesPlayerCollideWithBlock (env : PlayerEnvironment) (player : Player)
    (coordinates : Coordinate) : Bool :=
  let blockToBePlacedAABB := AABB.ofSize ⟨env.BLOCK_SIZE, env.BLOCK_SIZE, env.BLOCK_SIZE⟩
  let blockToBePlacedAABB :=
    blockToBePlacedAABB.updatePosition (env.nonBlockMetric coordinates)
      RelativeTo.LeftBottomBack
  env.intersect player.collisionBox blockToBePlacedAABB

/-- The source function `Player::tryPlaceBlock`. The result of
`tryToPlaceBlock` is not looked at. -/
def Player.tryPlaceBlock (env : PlayerEnvironment) (player : Player) : Player :=
  if player.mSelectedBlock.isAnyBlockHighlighted then
    let relativeDirectionWhereBlockToBePlaced :=
      env.directionOfFace player.mSelectedBlock.blockFace
    let coordinatesOfBlockToBePlaced :=
      env.coordinateInGivenDirection player.mSelectedBlock.blockPosition
        relativeDirectionWhereBlockToBePlaced
    if !player.doesPlayerCollideWithBlock env coordinatesOfBlockToBePlaced then
      { player with
        mWorldEdits := player.mWorldEdits ++
          [WorldEdit.tryToPlaceBlock BlockId.Dirt coordinatesOfBlockToBePlaced
            env.BLOCKS_THAT_MIGHT_BE_OVERPLACED] }
    else
      player
  else
    player

/-! ## Notions used to state the properties -/

/-- The box of one cell as `Player::doesPlayerCollideWithBlock` builds it: a cube with
the edge `BLOCK_SIZE`, placed with its left bottom back corner at the position of
the cell in world units. -/
def cellBox (env : PlayerEnvironment) (coordinates : Coordinate) : AABB :=
  ⟨⟨env.BLOCK_SIZE, env.BLOCK_SIZE, env.BLOCK_SIZE⟩, env.nonBlockMetric coordinates,
    RelativeTo.LeftBottomBack⟩

/-- The cell next to the highlighted block on the side of the highlighted face. -/
def Player.targetCell (env : PlayerEnvironment) (player : Player) : Coordinate :=
  env.coordinateInGivenDirection player.mSelectedBlock.blockPosition
    (env.directionOfFace player.mSelectedBlock.blockFace)

/-- The setting of a `.cfg` file that names the texture of one face only. -/
def Face.ownSetting : Face → String
  | .Top => "TextureTop"
  | .Left => "TextureLeft"
  | .Right => "TextureRight"
  | .Bottom => "TextureBottom"
  | .Front => "TextureFront"
  | .Back => "TextureBack"
  | .Counter => ""

/-- The four side faces of a block. -/
def Face.isSide (f : Face) : Prop :=
  f = Face.Left ∨ f = Face.Right ∨ f = Face.Front ∨ f = Face.Back

instance (f : Face) : Decidable f.isSide := by unfold Face.isSide; infer_instance

/-- The cell one step beyond a face of the cell at `p`, in unbounded integers. -/
def cellBeyond (f : Face) (p : Coordinate) : Coordinate :=
  match f with
  | .Top => ⟨p.x, p.y + 1, p.z⟩
  | .Bottom => ⟨p.x, p.y - 1, p.z⟩
  | .Left => ⟨p.x - 1, p.y, p.z⟩
  | .Right => ⟨p.x + 1, p.y, p.z⟩
  | .Front => ⟨p.x, p.y, p.z + 1⟩
  | .Back => ⟨p.x, p.y, p.z - 1⟩
  | .Counter => p

/-- The face on the other side of a block. -/
def Face.opposite : Face → Face
  | .Top => .Bottom
  | .Bottom => .Top
  | .Left => .Right
  | .Right => .Left
  | .Front => .Back
  | .Back => .Front
  | .Counter => .Counter

/-- The container resolves every global coordinate owned by the chunk `b` to the
block that `b` stores at `globalToLocalCoordinates` of it. -/
def ChunkContainer.resolvesInto (d : ChunkDimensions) (parent : ChunkContainer) (b : Chunk) :
    Prop :=
  ∀ g : Coordinate, g.isRepresentable →
    areLocalCoordinatesInsideChunk d (b.globalToLocalCoordinates g) = true →
    parent.worldBlock g = some (b.mChunkOfBlocks (b.globalToLocalCoordinates g))

/-- The cell `p` of the chunk `a` and the cell `q` of the chunk `b` touch across the
face `f` of `p`: going one step beyond `f` from `p` leaves `a` and arrives at the
global coordinate of `q`, and going one step back from `q` leaves `b` and arrives
at the global coordinate of `p`. -/
def touchAcross (d : ChunkDimensions) (a b : Chunk) (f : Face) (p q : Coordinate) : Prop :=
  areLocalCoordinatesInsideChunk d p = true ∧ areLocalCoordinatesInsideChunk d q = true ∧
  areLocalCoordinatesInsideChunk d (cellBeyond f p) = false ∧
  areLocalCoordinatesInsideChunk d (cellBeyond f.opposite q) = false ∧
  a.localToGlobalCoordinates (cellBeyond f p) = b.localToGlobalCoordinates q ∧
  b.localToGlobalCoordinates (cellBeyond f.opposite q) = a.localToGlobalCoordinates p

instance (d : ChunkDimensions) (a b : Chunk) (f : Face) (p q : Coordinate) :
    Decidable (touchAcross d a b f p q) := by
  unfold touchAcross; infer_instance

/-- Modelled from the spec: `ChunkContainer::worldBlock` for a container holding
the listed chunks (origin and block array), "resolving the owning chunk" of the
global coordinate and returning "absent if that chunk is not currently loaded". -/
def worldBlockOfChunks (d : ChunkDimensions) (chunks : List (Coordinate × ChunkBlocks))
    (g : Coordinate) : Option Block :=
  chunks.findSome? fun entry =>
    if areLocalCoordinatesInsideChunk d (g - entry.1) then some (entry.2 (g - entry.1)) else none

/-- The visibility of a face in closed form: what the nested conditions of the
lambda come to once the neighbour position is known. -/
def Chunk.neighbourTransparency (d : ChunkDimensions) (blockMap : BlockMap) (ch : Chunk)
    (n : Coordinate) : Bool :=
  if areLocalCoordinatesInsideChunk d n then
    (ch.mChunkOfBlocks n).isTransparent blockMap
  else
    match ch.mParentContainer with
    | some parent =>
      match parent.worldBlock (ch.localToGlobalCoordinates n) with
      | some neighborBlock => neighborBlock.isTransparent blockMap
      | none => true
    | none => true

/-- The remaining height budget of a cell in the words of the specification, with
exact arithmetic: target height of the column minus the global `y` of the chunk
origin, minus one block size per layer below the cell. -/
def heightBudget (t : TerrainParameters) (o c : Coordinate) : Rat :=
  (t.noise ((wrapInt (o.x + c.x) : Int) : Rat) ((wrapInt (o.z + c.z) : Int) : Rat) + 1) / 2 *
      t.MAX_HEIGHT_MAP - (o.y : Rat) - (c.y : Rat) * t.BLOCK_SIZE

/-- The value `heightOfColumn` has in `Chunk::generateChunkTerrain` when the loop
over `y` is entered for the column of the local coordinates `x` and `z`. -/
def Chunk.columnHeight (t : TerrainParameters) (ch : Chunk) (x z : Int) : Rat :=
  (t.noise ((ch.localToGlobalCoordinates ⟨x, 0, z⟩).x : Rat)
      ((ch.localToGlobalCoordinates ⟨x, 0, z⟩).z : Rat) + 1) / 2 * t.MAX_HEIGHT_MAP -
    ((ch.localToGlobalCoordinates ⟨x, 0, z⟩).y : Rat)

/-- The block `Chunk::generateChunkTerrain` stores at the local coordinate `c`, in
closed form. -/
def Chunk.generatedBlock (t : TerrainParameters) (ch : Chunk) (c : Coordinate) : Block :=
  if ch.columnHeight t c.x c.z - (c.y : Rat) * t.BLOCK_SIZE > 0 then ⟨"Grass"⟩ else ⟨"Air"⟩

/-- The chunk with the quads of its mesh builder replaced. -/
def Chunk.withQuads (ch : Chunk) (quads : List Quad) : Chunk :=
  { ch with mMeshBuilder := ⟨quads⟩ }

/-- The quad of the face `f` of the cell at `pos`, as `Chunk::createBlockMesh` hands
it to the mesh builder. -/
def Chunk.quadOf (blockMap : BlockMap) (ch : Chunk) (pos : Coordinate) (f : Face) : Quad :=
  ⟨f, ch.mTexturePack.normalizedCoordinates ((ch.mChunkOfBlocks pos).blockTextureId blockMap f),
    pos⟩

/-- The quads one iteration of the loop of `Chunk::createBlockMesh` adds. -/
def Chunk.faceQuads (d : ChunkDimensions) (blockMap : BlockMap) (ch : Chunk) (pos : Coordinate)
    (i : Nat) : List Quad :=
  if ch.neighbourTransparency d blockMap (cellBeyond (Face.ofIndex i) pos) then
    [ch.quadOf blockMap pos (Face.ofIndex i)]
  else []

/-- The quads one iteration of the innermost loop of `Chunk::prepareMesh` adds. -/
def Chunk.cellQuads (d : ChunkDimensions) (blockMap : BlockMap) (ch : Chunk) (pos : Coordinate) :
    List Quad :=
  if (ch.mChunkOfBlocks pos).blockId = "Air" then []
  else (List.range Face.Counter.toIndex).flatMap (ch.faceQuads d blockMap pos)

/-- The quads `Chunk::prepareMesh` adds, in the order of the scan. -/
def Chunk.scanQuads (d : ChunkDimensions) (blockMap : BlockMap) (ch : Chunk) : List Quad :=
  (List.range d.BLOCKS_PER_X_DIMENSION).flatMap fun x =>
    (List.range d.BLOCKS_PER_Y_DIMENSION).flatMap fun y =>
      (List.range d.BLOCKS_PER_Z_DIMENSION).flatMap fun z =>
        ch.cellQuads d blockMap ⟨x, y, z⟩

/-- The pairs of a cell and a face for which a quad is due: the cell is inside the
chunk and does not hold "Air", and the face has a transparent neighbour. -/
def Chunk.quadDue (d : ChunkDimensions) (blockMap : BlockMap) (ch : Chunk) (p : Coordinate)
    (f : Face) : Prop :=
  areLocalCoordinatesInsideChunk d p = true ∧ (ch.mChunkOfBlocks p).blockId ≠ "Air" ∧
    ch.doesBlockFaceHasTransparentNeighbor d blockMap f p = .ok true

/-- A coordinate is the origin of a chunk: it is "aligned to the chunk grid", each
component a multiple of the number of blocks of a chunk along that axis, and the
global coordinates of all the cells of the chunk are values of type `int`. -/
def onChunkGrid (d : ChunkDimensions) (o : Coordinate) : Prop :=
  (o.x % (d.BLOCKS_PER_X_DIMENSION : Int) = 0 ∧ o.y % (d.BLOCKS_PER_Y_DIMENSION : Int) = 0 ∧
    o.z % (d.BLOCKS_PER_Z_DIMENSION : Int) = 0) ∧
  o.isRepresentable ∧
  (o.x + d.BLOCKS_PER_X_DIMENSION ≤ 2147483648 ∧ o.y + d.BLOCKS_PER_Y_DIMENSION ≤ 2147483648 ∧
    o.z + d.BLOCKS_PER_Z_DIMENSION ≤ 2147483648)

instance (d : ChunkDimensions) (o : Coordinate) : Decidable (onChunkGrid d o) := by
  unfold onChunkGrid; infer_instance

/-- A local coordinate is a corner of the chunk. -/
def isCorner (d : ChunkDimensions) (c : Coordinate) : Prop :=
  (c.x = 0 ∨ c.x = (d.BLOCKS_PER_X_DIMENSION : Int) - 1) ∧
  (c.y = 0 ∨ c.y = (d.BLOCKS_PER_Y_DIMENSION : Int) - 1) ∧
  (c.z = 0 ∨ c.z = (d.BLOCKS_PER_Z_DIMENSION : Int) - 1)

instance (d : ChunkDimensions) (c : Coordinate) : Decidable (isCorner d c) := by
  unfold isCorner; infer_instance

/-! ## Sample data -/

/-- A chunk of two by two by two blocks. -/
def sampleDimensions : ChunkDimensions := ⟨2, 2, 2, by decide⟩

/-- A catalog in which exactly "Air" and "Water" are transparent. -/
def sampleBlockMap : BlockMap := fun name =>
  ⟨name = "Air" ∨ name = "Water", !(name = "Air" ∨ name = "Water"), fun _ => name.length⟩

/-- A texture atlas. -/
def sampleTexturePack : TexturePack := ⟨fun t => [(t : Rat) / 16]⟩

/-- Block contents: "Grass" in the bottom layer, "Air" above it. -/
def sampleBlocks : ChunkBlocks := fun c => if c.y ≤ 0 then ⟨"Grass"⟩ else ⟨"Air"⟩

/-- Block contents: "Grass" everywhere. -/
def solidBlocks : ChunkBlocks := fun _ => ⟨"Grass"⟩

/-- A standalone chunk at the origin of the world. -/
def sampleChunk : Chunk :=
  ⟨⟨0, 0, 0⟩, sampleTexturePack, none, ⟨[]⟩, sampleBlocks, false, []⟩

/-- The block arrays of a world of two chunks side by side along `x`: `sampleBlocks`
at the origin, `solidBlocks` to its right. -/
def sampleWorld : List (Coordinate × ChunkBlocks) :=
  [(⟨0, 0, 0⟩, sampleBlocks), (⟨2, 0, 0⟩, solidBlocks)]

/-- The container of `sampleWorld`. -/
def sampleContainer : ChunkContainer :=
  ⟨worldBlockOfChunks sampleDimensions sampleWorld,
   fun o => sampleWorld.findIdx? fun entry => entry.1 = o⟩

/-- The left chunk of `sampleWorld`, attached to its container and to a manager. -/
def leftChunk : Chunk :=
  ⟨⟨0, 0, 0⟩, sampleTexturePack, some sampleContainer, ⟨[]⟩, sampleBlocks, true, []⟩

/-- The right chunk of `sampleWorld`, attached to its container and to a manager. -/
def rightChunk : Chunk :=
  ⟨⟨2, 0, 0⟩, sampleTexturePack, some sampleContainer, ⟨[]⟩, solidBlocks, true, []⟩

/-- A standalone chunk at the origin of the world that holds "Grass" everywhere. -/
def solidChunk : Chunk :=
  ⟨⟨0, 0, 0⟩, sampleTexturePack, none, ⟨[]⟩, solidBlocks, false, []⟩

/-- Terrain parameters: a flat noise field of value 0, so that every column has
half the maximal height, and blocks of size 1. -/
def sampleTerrain : TerrainParameters := ⟨fun _ _ => 0, 2, 1⟩

/-- Terrain parameters: a flat noise field of value 0 and blocks of size 2. -/
def steepTerrain : TerrainParameters := ⟨fun _ _ => 0, 4, 2⟩

/-- A standalone chunk whose origin is one block above the origin of the world. -/
def raisedChunk : Chunk :=
  ⟨⟨0, 1, 0⟩, sampleTexturePack, none, ⟨[]⟩, solidBlocks, false, []⟩

/-- The standalone sample chunk with the mesh its constructor builds by `prepareMesh`. -/
def meshedChunk : Chunk :=
  sampleChunk.withQuads (sampleChunk.scanQuads sampleDimensions sampleBlockMap)

/-- The value of `sf::seconds(1.f / 60)`, the constant
`Game::MINIMAL_TIME_PER_FIXED_UPDATE`, in microseconds. -/
def sampleMinimalTime : Int := 16666

/-- The settings of a block with a general texture, a side texture and a texture of
its own for the top and for the left face, without an "Id". -/
def sampleSettings : Settings :=
  ⟨fun name => name ∈ ["Texture", "TextureSide", "TextureTop", "TextureLeft", "Transparent"],
   fun _ => "",
   fun name => if name = "Texture" then 1 else if name = "TextureSide" then 2 else
     if name = "TextureTop" then 3 else if name = "TextureLeft" then 4 else 0,
   fun _ => false,
   fun _ => 7⟩

/-- A default-constructed block type. -/
def freshBlockType : BlockTypeRecord := ⟨"", "", fun _ => none, false, true, 0⟩

/-- The least corner of a box along one axis, for the two anchors: the position
itself, or the position moved back by half the size on `x` and `z`. -/
def sampleLeast (aabb : AABB) : Vector3f :=
  match aabb.mRelativeTo with
  | .LeftBottomBack => aabb.mPosition
  | .BottomCenter =>
    ⟨aabb.mPosition.x - aabb.mCollisionBoxSize.x / 2, aabb.mPosition.y,
      aabb.mPosition.z - aabb.mCollisionBoxSize.z / 2⟩

/-- Two boxes overlap on every axis. -/
def sampleIntersect (a b : AABB) : Bool :=
  decide ((sampleLeast a).x < (sampleLeast b).x + b.mCollisionBoxSize.x ∧
    (sampleLeast b).x < (sampleLeast a).x + a.mCollisionBoxSize.x ∧
    (sampleLeast a).y < (sampleLeast b).y + b.mCollisionBoxSize.y ∧
    (sampleLeast b).y < (sampleLeast a).y + a.mCollisionBoxSize.y ∧
    (sampleLeast a).z < (sampleLeast b).z + b.mCollisionBoxSize.z ∧
    (sampleLeast b).z < (sampleLeast a).z + a.mCollisionBoxSize.z)

/-- An environment of the player: blocks of size 1, a player 9/5 high with the eyes at
8/5, "Air" (the enumerator 0) and "Water" as the blocks that may be overplaced, faces
paired with directions as in `Chunk::doesBlockFaceHasTransparentNeighbor`, and the
neighbour of a coordinate as in `Chunk::localNearbyBlockPosition`. -/
def sampleEnvironment : PlayerEnvironment :=
  { BLOCK_SIZE := 1
    PLAYER_HEIGHT := 9 / 5
    PLAYER_EYES_LEVEL := 8 / 5
    BLOCKS_THAT_MIGHT_BE_OVERPLACED := [BlockId.other 0, BlockId.Water]
    directionOfFace := fun f => f.direction.getD Direction.None
    coordinateInGivenDirection := fun c dir =>
      match localNearbyBlockPosition c dir with
      | .ok n => n
      | .error _ => c
    nonBlockMetric := fun c => ⟨c.x, c.y, c.z⟩
    intersect := sampleIntersect }

/-- A player standing in the cell `(0, 0, 0)` who highlights the left face of the block
at `(3, 0, 0)`. -/
def samplePlayer : Player :=
  { mPosition := ⟨1 / 2, 0, 1 / 2⟩
    mAABB := ⟨⟨1 / 2, 9 / 5, 1 / 2⟩, ⟨1 / 2, 0, 1 / 2⟩, RelativeTo.BottomCenter⟩
    mSelectedBlock := ⟨true, ⟨3, 0, 0⟩, Face.Left⟩
    mIsPlayerInWater := false
    mArePlayerEyesInWater := true
    mWorldEdits := [] }

/-- The same player highlighting the top face of the block under the feet. -/
def blockedPlayer : Player :=
  { samplePlayer with mSelectedBlock := ⟨true, ⟨0, -1, 0⟩, Face.Top⟩ }

/-- A world in which only the box of the whole player touches water. -/
def shallowWater (aabb : AABB) : List BlockId :=
  if aabb.mCollisionBoxSize.y = 9 / 5 then [BlockId.Dirt, BlockId.Water] else [BlockId.Dirt]

/-! ## Auxiliary facts -/

theorem wrapInt_of_isInt32 {n : Int} (h : isInt32 n) : wrapInt n = n := by
  unfold isInt32 at h
  unfold wrapInt
  omega

theorem isInt32_wrapInt (n : Int) : isInt32 (wrapInt n) := by
  unfold isInt32 wrapInt
  omega

theorem areLocalCoordinatesInsideChunk_iff (d : ChunkDimensions) (c : Coordinate) :
    areLocalCoordinatesInsideChunk d c = true ↔
      (0 ≤ c.x ∧ c.x < d.BLOCKS_PER_X_DIMENSION) ∧ (0 ≤ c.y ∧ c.y < d.BLOCKS_PER_Y_DIMENSION) ∧
        (0 ≤ c.z ∧ c.z < d.BLOCKS_PER_Z_DIMENSION) := by
  unfold areLocalCoordinatesInsideChunk
  constructor
  · intro h
    split at h
    · omega
    · exact absurd h (by decide)
  · intro h
    rw [if_pos (by omega)]

theorem index_of_inside (d : ChunkDimensions) (blocks : ChunkBlocks) (c : Coordinate)
    (h : areLocalCoordinatesInsideChunk d c = true) :
    ChunkBlocks.index d blocks c = .ok (blocks c) := by
  rw [areLocalCoordinatesInsideChunk_iff] at h
  unfold ChunkBlocks.index
  rw [if_pos (by omega)]

theorem index_of_outside (d : ChunkDimensions) (blocks : ChunkBlocks) (c : Coordinate)
    (h : areLocalCoordinatesInsideChunk d c = false) :
    ChunkBlocks.index d blocks c = .error .uncheckedArrayAccess := by
  have h' : ¬ areLocalCoordinatesInsideChunk d c = true := by simp [h]
  rw [areLocalCoordinatesInsideChunk_iff] at h'
  unfold ChunkBlocks.index
  rw [if_neg (by omega)]

theorem isBlockTransparent_of_position (d : ChunkDimensions) (blockMap : BlockMap) (ch : Chunk)
    (p n : Coordinate) (dir : Direction) (h : localNearbyBlockPosition p dir = .ok n) :
    ch.isBlockTransparent d blockMap p dir = .ok (ch.neighbourTransparency d blockMap n) := by
  unfold Chunk.isBlockTransparent Chunk.neighbourTransparency
  rw [h]
  by_cases hin : areLocalCoordinatesInsideChunk d n = true
  · simp [hin, Chunk.localBlock, index_of_inside d _ n hin]
  · have hin' : areLocalCoordinatesInsideChunk d n = false := by simpa using hin
    obtain ⟨o, tp, pc, mb, blocks, mgr, ev⟩ := ch
    cases pc with
    | none => simp [hin', Chunk.belongsToAnyChunkContainer]
    | some parent =>
      simp only [hin', Chunk.belongsToAnyChunkContainer, Option.isSome_some, if_true,
        Bool.false_eq_true, if_false]
      cases parent.worldBlock (Chunk.localToGlobalCoordinates _ n) <;> rfl

theorem localNearbyBlockPosition_of_face (d : ChunkDimensions) (f : Face) (p : Coordinate)
    (hf : f.isSupported) (hp : areLocalCoordinatesInsideChunk d p = true) :
    ∃ dir, f.direction = some dir ∧ localNearbyBlockPosition p dir = .ok (cellBeyond f p) := by
  rw [areLocalCoordinatesInsideChunk_iff] at hp
  have hd := d.areInts
  cases f with
  | Counter => exact absurd rfl hf
  | Top =>
    refine ⟨.Above, rfl, ?_⟩
    simp only [localNearbyBlockPosition, cellBeyond]
    rw [wrapInt_of_isInt32 (by unfold isInt32; omega)]
  | Bottom =>
    refine ⟨.Below, rfl, ?_⟩
    simp only [localNearbyBlockPosition, cellBeyond]
    rw [wrapInt_of_isInt32 (by unfold isInt32; omega)]
  | Left =>
    refine ⟨.ToTheLeft, rfl, ?_⟩
    simp only [localNearbyBlockPosition, cellBeyond]
    rw [wrapInt_of_isInt32 (by unfold isInt32; omega)]
  | Right =>
    refine ⟨.ToTheRight, rfl, ?_⟩
    simp only [localNearbyBlockPosition, cellBeyond]
    rw [wrapInt_of_isInt32 (by unfold isInt32; omega)]
  | Front =>
    refine ⟨.InFront, rfl, ?_⟩
    simp only [localNearbyBlockPosition, cellBeyond]
    rw [wrapInt_of_isInt32 (by unfold isInt32; omega)]
  | Back =>
    refine ⟨.Behind, rfl, ?_⟩
    simp only [localNearbyBlockPosition, cellBeyond]
    rw [wrapInt_of_isInt32 (by unfold isInt32; omega)]

theorem doesBlockFaceHasTransparentNeighbor_eq (d : ChunkDimensions) (blockMap : BlockMap)
    (ch : Chunk) (f : Face) (p : Coordinate) (hf : f.isSupported)
    (hp : areLocalCoordinatesInsideChunk d p = true) :
    ch.doesBlockFaceHasTransparentNeighbor d blockMap f p =
      .ok (ch.neighbourTransparency d blockMap (cellBeyond f p)) := by
  obtain ⟨dir, hdir, hpos⟩ := localNearbyBlockPosition_of_face d f p hf hp
  rw [← isBlockTransparent_of_position d blockMap ch p _ dir hpos]
  cases f <;> simp [Face.direction] at hdir <;> subst hdir <;> rfl

/-! ## Visibility of a face -/

/-- C1. For each of the six faces `f` and every in-bounds local position `p`,
`doesBlockFaceHasTransparentNeighbor(f, p)` looks at the cell one step beyond `f`
(the position `localNearbyBlockPosition` returns for the direction of `f`). If that
cell is inside the chunk the result is the transparency of the chunk's own block
there, whatever container is or is not attached. Otherwise, if a container is
attached and its `worldBlock` yields a block for the global coordinate of that
cell, the result is the transparency of that block. -/
theorem doesBlockFaceHasTransparentNeighbor_resolution (d : ChunkDimensions)
    (blockMap : BlockMap) (ch : Chunk) (f : Face) (p : Coordinate) (hf : f.isSupported)
    (hp : areLocalCoordinatesInsideChunk d p = true) :
    (∃ dir, f.direction = some dir ∧
        localNearbyBlockPosition p dir = .ok (cellBeyond f p)) ∧
    (areLocalCoordinatesInsideChunk d (cellBeyond f p) = true →
        ch.doesBlockFaceHasTransparentNeighbor d blockMap f p =
          .ok ((ch.mChunkOfBlocks (cellBeyond f p)).isTransparent blockMap) ∧
        ∀ pc : Option ChunkContainer,
          Chunk.doesBlockFaceHasTransparentNeighbor d blockMap
              { ch with mParentContainer := pc } f p =
            ch.doesBlockFaceHasTransparentNeighbor d blockMap f p) ∧
    (areLocalCoordinatesInsideChunk d (cellBeyond f p) = false →
        ∀ (parent : ChunkContainer) (b : Block), ch.mParentContainer = some parent →
          parent.worldBlock (ch.localToGlobalCoordinates (cellBeyond f p)) = some b →
          ch.doesBlockFaceHasTransparentNeighbor d blockMap f p =
            .ok (b.isTransparent blockMap)) := by
  refine ⟨localNearbyBlockPosition_of_face d f p hf hp, ?_, ?_⟩
  · intro hin
    refine ⟨?_, ?_⟩
    · rw [doesBlockFaceHasTransparentNeighbor_eq d blockMap ch f p hf hp]
      simp [Chunk.neighbourTransparency, hin]
    · intro pc
      rw [doesBlockFaceHasTransparentNeighbor_eq d blockMap ch f p hf hp,
        doesBlockFaceHasTransparentNeighbor_eq d blockMap _ f p hf hp]
      simp [Chunk.neighbourTransparency, hin]
  · intro hout parent b hparent hworld
    rw [doesBlockFaceHasTransparentNeighbor_eq d blockMap ch f p hf hp]
    simp [Chunk.neighbourTransparency, hout, hparent, hworld]

/-- Witness of C1: the right face of the cell `(1, 0, 0)` of the left sample chunk. -/
theorem doesBlockFaceHasTransparentNeighbor_resolution_witness :
    Face.Right.isSupported ∧
    areLocalCoordinatesInsideChunk sampleDimensions ⟨1, 0, 0⟩ = true ∧
    areLocalCoordinatesInsideChunk sampleDimensions (cellBeyond Face.Right ⟨1, 0, 0⟩) = false ∧
    leftChunk.doesBlockFaceHasTransparentNeighbor sampleDimensions sampleBlockMap Face.Right
      ⟨1, 0, 0⟩ = .ok false :=
  ⟨by decide, by decide, by decide,
   (doesBlockFaceHasTransparentNeighbor_resolution sampleDimensions sampleBlockMap leftChunk
      Face.Right ⟨1, 0, 0⟩ (by decide) (by decide)).2.2 (by decide) sampleContainer ⟨"Grass"⟩
      rfl (by decide)⟩

/-- C2. For each of the six faces `f` and every in-bounds local position `p` whose
neighbour beyond `f` is outside the chunk: if no container is attached, or the
attached container's `worldBlock` returns absent for the global coordinate of the
neighbour, `doesBlockFaceHasTransparentNeighbor(f, p)` returns true. The first
alternative is the case of a standalone chunk: each of its outward-pointing faces
is visible. -/
theorem doesBlockFaceHasTransparentNeighbor_open_boundary (d : ChunkDimensions)
    (blockMap : BlockMap) (ch : Chunk) (f : Face) (p : Coordinate) (hf : f.isSupported)
    (hp : areLocalCoordinatesInsideChunk d p = true)
    (hout : areLocalCoordinatesInsideChunk d (cellBeyond f p) = false)
    (habsent : ch.belongsToAnyChunkContainer = false ∨
      ∃ parent, ch.mParentContainer = some parent ∧
        parent.worldBlock (ch.localToGlobalCoordinates (cellBeyond f p)) = none) :
    ch.doesBlockFaceHasTransparentNeighbor d blockMap f p = .ok true := by
  rw [doesBlockFaceHasTransparentNeighbor_eq d blockMap ch f p hf hp]
  rcases habsent with hnone | ⟨parent, hparent, hworld⟩
  · have hpc : ch.mParentContainer = none := by
      simpa [Chunk.belongsToAnyChunkContainer] using hnone
    simp [Chunk.neighbourTransparency, hout, hpc]
  · simp [Chunk.neighbourTransparency, hout, hparent, hworld]

/-- Witness of C2: the top face of a cell of the upper layer of the standalone
sample chunk. -/
theorem doesBlockFaceHasTransparentNeighbor_open_boundary_witness :
    sampleChunk.doesBlockFaceHasTransparentNeighbor sampleDimensions sampleBlockMap Face.Top
      ⟨0, 1, 0⟩ = .ok true :=
  doesBlockFaceHasTransparentNeighbor_open_boundary sampleDimensions sampleBlockMap sampleChunk
    Face.Top ⟨0, 1, 0⟩ (by decide) (by decide) (by decide) (Or.inl rfl)

/-! ## Local and global coordinates -/

theorem wrapInt_sub_wrapInt_add (o c : Int) (hc : isInt32 c) :
    wrapInt (wrapInt (o + c) - o) = c := by
  unfold isInt32 at hc
  unfold wrapInt
  omega

theorem wrapInt_add_wrapInt_sub (o g : Int) (hg : isInt32 g) :
    wrapInt (o + wrapInt (g - o)) = g := by
  unfold isInt32 at hg
  unfold wrapInt
  omega

theorem globalToLocal_localToGlobal (ch : Chunk) (c : Coordinate) (hc : c.isRepresentable) :
    ch.globalToLocalCoordinates (ch.localToGlobalCoordinates c) = c := by
  obtain ⟨hx, hy, hz⟩ := hc
  obtain ⟨x, y, z⟩ := c
  show (⟨_, _, _⟩ : Coordinate) = _
  simp only [Coordinate.mk.injEq]
  exact ⟨wrapInt_sub_wrapInt_add _ _ hx, wrapInt_sub_wrapInt_add _ _ hy,
    wrapInt_sub_wrapInt_add _ _ hz⟩

theorem localToGlobal_globalToLocal (ch : Chunk) (g : Coordinate) (hg : g.isRepresentable) :
    ch.localToGlobalCoordinates (ch.globalToLocalCoordinates g) = g := by
  obtain ⟨hx, hy, hz⟩ := hg
  obtain ⟨x, y, z⟩ := g
  show (⟨_, _, _⟩ : Coordinate) = _
  simp only [Coordinate.mk.injEq]
  exact ⟨wrapInt_add_wrapInt_sub _ _ hx, wrapInt_add_wrapInt_sub _ _ hy,
    wrapInt_add_wrapInt_sub _ _ hz⟩

theorem isRepresentable_of_inside (d : ChunkDimensions) (c : Coordinate)
    (h : areLocalCoordinatesInsideChunk d c = true) : c.isRepresentable := by
  rw [areLocalCoordinatesInsideChunk_iff] at h
  have hd := d.areInts
  unfold Coordinate.isRepresentable isInt32
  omega

theorem isRepresentable_localToGlobal (ch : Chunk) (c : Coordinate) :
    (ch.localToGlobalCoordinates c).isRepresentable :=
  ⟨isInt32_wrapInt _, isInt32_wrapInt _, isInt32_wrapInt _⟩

/-- C5. For every chunk origin and every local coordinate `c` that is a value of
the coordinate type (three `int`s), in particular every `c` within the chunk
bounds, `globalToLocalCoordinates(localToGlobalCoordinates(c)) == c`; and for every
global coordinate `g`, `localToGlobalCoordinates(globalToLocalCoordinates(g)) == g`.
Both hold with the wrap-around of 32-bit addition and subtraction. -/
theorem coordinates_round_trip (ch : Chunk) :
    (∀ c : Coordinate, c.isRepresentable →
        ch.globalToLocalCoordinates (ch.localToGlobalCoordinates c) = c) ∧
    (∀ (d : ChunkDimensions) (c : Coordinate), areLocalCoordinatesInsideChunk d c = true →
        ch.globalToLocalCoordinates (ch.localToGlobalCoordinates c) = c) ∧
    (∀ g : Coordinate, g.isRepresentable →
        ch.localToGlobalCoordinates (ch.globalToLocalCoordinates g) = g) :=
  ⟨fun c hc => globalToLocal_localToGlobal ch c hc,
   fun d c hc => globalToLocal_localToGlobal ch c (isRepresentable_of_inside d c hc),
   fun g hg => localToGlobal_globalToLocal ch g hg⟩

/-- Witness of C5: the right sample chunk, whose origin is `(2, 0, 0)`, and a
coordinate at the end of the `int` range, where the addition wraps around. -/
theorem coordinates_round_trip_witness :
    (⟨2147483647, 1, -2147483648⟩ : Coordinate).isRepresentable ∧
    areLocalCoordinatesInsideChunk sampleDimensions ⟨1, 0, 1⟩ = true ∧
    rightChunk.localToGlobalCoordinates ⟨2147483647, 1, -2147483648⟩ =
      ⟨-2147483647, 1, -2147483648⟩ ∧
    rightChunk.globalToLocalCoordinates
      (rightChunk.localToGlobalCoordinates ⟨2147483647, 1, -2147483648⟩) =
      ⟨2147483647, 1, -2147483648⟩ ∧
    rightChunk.globalToLocalCoordinates (rightChunk.localToGlobalCoordinates ⟨1, 0, 1⟩) =
      ⟨1, 0, 1⟩ ∧
    rightChunk.localToGlobalCoordinates
      (rightChunk.globalToLocalCoordinates ⟨2147483647, 1, -2147483648⟩) =
      ⟨2147483647, 1, -2147483648⟩ :=
  ⟨by decide, by decide, by decide,
   (coordinates_round_trip rightChunk).1 _ (by decide),
   (coordinates_round_trip rightChunk).2.1 sampleDimensions _ (by decide),
   (coordinates_round_trip rightChunk).2.2 _ (by decide)⟩

/-! ## The boundary between two chunks -/

theorem neighbourTransparency_across (d : ChunkDimensions) (blockMap : BlockMap)
    (parent : ChunkContainer) (a b : Chunk) (n q : Coordinate)
    (ha : a.mParentContainer = some parent) (hres : parent.resolvesInto d b)
    (hn : areLocalCoordinatesInsideChunk d n = false)
    (hq : areLocalCoordinatesInsideChunk d q = true)
    (hg : a.localToGlobalCoordinates n = b.localToGlobalCoordinates q) :
    a.neighbourTransparency d blockMap n = (b.mChunkOfBlocks q).isTransparent blockMap := by
  have hback : b.globalToLocalCoordinates (b.localToGlobalCoordinates q) = q :=
    globalToLocal_localToGlobal b q (isRepresentable_of_inside d q hq)
  have hworld : parent.worldBlock (b.localToGlobalCoordinates q) = some (b.mChunkOfBlocks q) := by
    have h := hres (b.localToGlobalCoordinates q) (isRepresentable_localToGlobal b q)
      (by rw [hback]; exact hq)
    rw [hback] at h
    exact h
  simp [Chunk.neighbourTransparency, hn, ha, hg, hworld]

/-- C3. Let the chunks `a` and `b` be held by the same container, which resolves a
global coordinate owned by either of them to the block that chunk stores at
`globalToLocalCoordinates` of it, and let the cell `p` of `a` touch the cell `q` of
`b` across the face `f` of `p`. Then the visibility `a` computes for the face `f` of
`p` is the transparency of the block of `b` at `q`, as `b.localBlock(q)` reads it,
and the visibility `b` computes for the opposite face of `q` is the transparency of
the block of `a` at `p`. Hence when both blocks are opaque neither of the two faces
is reported visible. -/
theorem boundary_visibility_consistent (d : ChunkDimensions) (blockMap : BlockMap)
    (parent : ChunkContainer) (a b : Chunk) (f : Face) (p q : Coordinate)
    (hf : f.isSupported)
    (ha : a.mParentContainer = some parent) (hb : b.mParentContainer = some parent)
    (hra : parent.resolvesInto d a) (hrb : parent.resolvesInto d b)
    (htouch : touchAcross d a b f p q) :
    (a.doesBlockFaceHasTransparentNeighbor d blockMap f p =
        (b.localBlock d q).map (Block.isTransparent blockMap)) ∧
    (a.doesBlockFaceHasTransparentNeighbor d blockMap f p =
        .ok ((b.mChunkOfBlocks q).isTransparent blockMap)) ∧
    (b.doesBlockFaceHasTransparentNeighbor d blockMap f.opposite q =
        .ok ((a.mChunkOfBlocks p).isTransparent blockMap)) ∧
    ((a.mChunkOfBlocks p).isTransparent blockMap = false →
      (b.mChunkOfBlocks q).isTransparent blockMap = false →
        a.doesBlockFaceHasTransparentNeighbor d blockMap f p = .ok false ∧
        b.doesBlockFaceHasTransparentNeighbor d blockMap f.opposite q = .ok false) := by
  obtain ⟨hp, hq, hpn, hqn, hpg, hqg⟩ := htouch
  have hf' : f.opposite.isSupported := by
    cases f <;> first
      | exact absurd rfl hf
      | (unfold Face.isSupported; decide)
  have h1 : a.doesBlockFaceHasTransparentNeighbor d blockMap f p =
      .ok ((b.mChunkOfBlocks q).isTransparent blockMap) := by
    rw [doesBlockFaceHasTransparentNeighbor_eq d blockMap a f p hf hp,
      neighbourTransparency_across d blockMap parent a b _ q ha hrb hpn hq hpg]
  have h2 : b.doesBlockFaceHasTransparentNeighbor d blockMap f.opposite q =
      .ok ((a.mChunkOfBlocks p).isTransparent blockMap) := by
    rw [doesBlockFaceHasTransparentNeighbor_eq d blockMap b f.opposite q hf' hq,
      neighbourTransparency_across d blockMap parent b a _ p hb hra hqn hp hqg]
  refine ⟨?_, h1, h2, ?_⟩
  · rw [h1, Chunk.localBlock, index_of_inside d _ q hq]
    rfl
  · intro hpa hqb
    rw [h1, h2, hpa, hqb]
    exact ⟨rfl, rfl⟩

theorem sampleContainer_resolvesInto_leftChunk :
    sampleContainer.resolvesInto sampleDimensions leftChunk := by
  intro g hg hin
  have hin' : areLocalCoordinatesInsideChunk sampleDimensions (g - (⟨0, 0, 0⟩ : Coordinate)) =
      true := hin
  show worldBlockOfChunks sampleDimensions sampleWorld g = some (sampleBlocks (g - ⟨0, 0, 0⟩))
  simp [worldBlockOfChunks, sampleWorld, hin']

theorem sampleContainer_resolvesInto_rightChunk :
    sampleContainer.resolvesInto sampleDimensions rightChunk := by
  intro g hg hin
  have hin' : areLocalCoordinatesInsideChunk sampleDimensions (g - (⟨2, 0, 0⟩ : Coordinate)) =
      true := hin
  have hout : areLocalCoordinatesInsideChunk sampleDimensions (g - (⟨0, 0, 0⟩ : Coordinate)) =
      false := by
    have h2 := (areLocalCoordinatesInsideChunk_iff _ _).1 hin'
    have h3 : ¬ areLocalCoordinatesInsideChunk sampleDimensions
        (g - (⟨0, 0, 0⟩ : Coordinate)) = true := by
      rw [areLocalCoordinatesInsideChunk_iff]
      obtain ⟨hx, -, -⟩ := hg
      unfold isInt32 at hx
      have e1 : (g - (⟨2, 0, 0⟩ : Coordinate)).x = wrapInt (g.x - 2) := rfl
      have e2 : (g - (⟨0, 0, 0⟩ : Coordinate)).x = wrapInt (g.x - 0) := rfl
      rw [e1] at h2
      rw [e2]
      simp only [sampleDimensions] at h2 ⊢
      unfold wrapInt at h2 ⊢
      omega
    simpa using h3
  show worldBlockOfChunks sampleDimensions sampleWorld g = some (solidBlocks (g - ⟨2, 0, 0⟩))
  simp [worldBlockOfChunks, sampleWorld, hin', hout]

/-- Witness of C3: the two chunks of the sample world; the cell `(1, 0, 0)` of the
left one touches the cell `(0, 0, 0)` of the right one across its right face, and
both cells hold "Grass". -/
theorem boundary_visibility_consistent_witness :
    touchAcross sampleDimensions leftChunk rightChunk Face.Right ⟨1, 0, 0⟩ ⟨0, 0, 0⟩ ∧
    leftChunk.doesBlockFaceHasTransparentNeighbor sampleDimensions sampleBlockMap Face.Right
      ⟨1, 0, 0⟩ = .ok false ∧
    rightChunk.doesBlockFaceHasTransparentNeighbor sampleDimensions sampleBlockMap Face.Left
      ⟨0, 0, 0⟩ = .ok false :=
  ⟨by decide,
   (boundary_visibility_consistent sampleDimensions sampleBlockMap sampleContainer leftChunk
      rightChunk Face.Right ⟨1, 0, 0⟩ ⟨0, 0, 0⟩ (by decide) rfl rfl
      sampleContainer_resolvesInto_leftChunk sampleContainer_resolvesInto_rightChunk
      (by decide)).2.2.2 (by decide) (by decide)⟩

/-! ## Removing a block -/

theorem rebuildFast_frame (ch : Chunk) :
    ch.rebuildFast.mChunkOfBlocks = ch.mChunkOfBlocks ∧
    ch.rebuildFast.mChunkPosition = ch.mChunkPosition ∧
    ch.rebuildFast.mMeshBuilder = ch.mMeshBuilder ∧
    ∃ requests : List Event, ch.rebuildFast.mEvents = ch.mEvents ++ requests ∧
      (requests = [] ∨ ∃ handle, requests = [Event.managerRebuildFast handle]) := by
  unfold Chunk.rebuildFast
  split
  · split
    · exact ⟨rfl, rfl, rfl, _, rfl, Or.inr ⟨_, rfl⟩⟩
    · exact ⟨rfl, rfl, rfl, [], by simp, Or.inl rfl⟩
  · exact ⟨rfl, rfl, rfl, [], by simp, Or.inl rfl⟩

/-- Counterexample to C7 as stated: for the coordinate `(2, 0, 0)`, outside a chunk
of two by two by two blocks, neither `localBlock` nor `removeLocalBlock` signals an
error; each indexes the block array with the coordinate it was given. Such a
coordinate reaches `localBlock` from an in-bounds one: `localNearbyBlock` of the cell
`(0, 0, 0)` and the direction `Below` hands it the position `(0, -1, 0)`. -/
theorem localBlock_not_validated_counterexample :
    areLocalCoordinatesInsideChunk sampleDimensions ⟨2, 0, 0⟩ = false ∧
    sampleChunk.localBlock sampleDimensions ⟨2, 0, 0⟩ = .error Fault.uncheckedArrayAccess ∧
    sampleChunk.removeLocalBlock sampleDimensions ⟨2, 0, 0⟩ =
      .error Fault.uncheckedArrayAccess ∧
    (¬ ∃ what, sampleChunk.localBlock sampleDimensions ⟨2, 0, 0⟩ =
        .error (Fault.runtimeError what)) ∧
    (¬ ∃ what, sampleChunk.removeLocalBlock sampleDimensions ⟨2, 0, 0⟩ =
        .error (Fault.runtimeError what)) ∧
    areLocalCoordinatesInsideChunk sampleDimensions ⟨0, 0, 0⟩ = true ∧
    localNearbyBlockPosition ⟨0, 0, 0⟩ Direction.Below = .ok ⟨0, -1, 0⟩ ∧
    sampleChunk.localNearbyBlock sampleDimensions ⟨0, 0, 0⟩ Direction.Below =
      .error Fault.uncheckedArrayAccess := by
  have h1 : sampleChunk.localBlock sampleDimensions ⟨2, 0, 0⟩ =
      .error Fault.uncheckedArrayAccess := rfl
  have h2 : sampleChunk.removeLocalBlock sampleDimensions ⟨2, 0, 0⟩ =
      .error Fault.uncheckedArrayAccess := rfl
  refine ⟨by decide, h1, h2, ?_, ?_, by decide, rfl, rfl⟩
  · rintro ⟨what, h⟩
    rw [h1] at h
    cases h
  · rintro ⟨what, h⟩
    rw [h2] at h
    cases h

/-- C7, amended. `localBlock(c)` and `removeLocalBlock(c)` do not validate `c`. For
every `c` that the bounds predicate rejects, each of them indexes the block array
with `c`, unchecked: what results is the undefined outcome of that access, never a
signalled error. For every `c` that the bounds predicate accepts, `localBlock`
returns the block stored at `c` and `removeLocalBlock` returns normally. -/
theorem localBlock_removeLocalBlock_unchecked (d : ChunkDimensions) (ch : Chunk)
    (c : Coordinate) :
    (areLocalCoordinatesInsideChunk d c = false →
      ch.localBlock d c = .error Fault.uncheckedArrayAccess ∧
      ch.removeLocalBlock d c = .error Fault.uncheckedArrayAccess ∧
      (∀ what, ch.localBlock d c ≠ .error (Fault.runtimeError what)) ∧
      (∀ what, ch.removeLocalBlock d c ≠ .error (Fault.runtimeError what))) ∧
    (areLocalCoordinatesInsideChunk d c = true →
      ch.localBlock d c = .ok (ch.mChunkOfBlocks c) ∧
      ∃ ch', ch.removeLocalBlock d c = .ok ch') := by
  constructor
  · intro hc
    have h1 : ch.localBlock d c = .error Fault.uncheckedArrayAccess := by
      unfold Chunk.localBlock
      exact index_of_outside d _ c hc
    have h2 : ch.removeLocalBlock d c = .error Fault.uncheckedArrayAccess := by
      unfold Chunk.removeLocalBlock
      rw [index_of_outside d _ c hc]
    refine ⟨h1, h2, ?_, ?_⟩
    · intro what h
      rw [h1] at h
      cases h
    · intro what h
      rw [h2] at h
      cases h
  · intro hc
    unfold Chunk.localBlock Chunk.removeLocalBlock
    rw [index_of_inside d _ c hc]
    exact ⟨rfl, _, rfl⟩

/-- Witness of C7, amended: a coordinate with a negative component, and one inside
the bounds. -/
theorem localBlock_removeLocalBlock_unchecked_witness :
    areLocalCoordinatesInsideChunk sampleDimensions ⟨0, -1, 0⟩ = false ∧
    areLocalCoordinatesInsideChunk sampleDimensions ⟨0, 1, 0⟩ = true ∧
    (leftChunk.localBlock sampleDimensions ⟨0, -1, 0⟩ = .error Fault.uncheckedArrayAccess ∧
      leftChunk.removeLocalBlock sampleDimensions ⟨0, -1, 0⟩ =
        .error Fault.uncheckedArrayAccess ∧
      (∀ what, leftChunk.localBlock sampleDimensions ⟨0, -1, 0⟩ ≠
        .error (Fault.runtimeError what)) ∧
      (∀ what, leftChunk.removeLocalBlock sampleDimensions ⟨0, -1, 0⟩ ≠
        .error (Fault.runtimeError what))) ∧
    (leftChunk.localBlock sampleDimensions ⟨0, 1, 0⟩ = .ok (leftChunk.mChunkOfBlocks ⟨0, 1, 0⟩) ∧
      ∃ ch', leftChunk.removeLocalBlock sampleDimensions ⟨0, 1, 0⟩ = .ok ch') :=
  ⟨by decide, by decide,
   (localBlock_removeLocalBlock_unchecked sampleDimensions leftChunk ⟨0, -1, 0⟩).1 (by decide),
   (localBlock_removeLocalBlock_unchecked sampleDimensions leftChunk ⟨0, 1, 0⟩).2 (by decide)⟩

/-! ## Faces in contact with another chunk -/

theorem directionOfBlockFacesInContactWithOtherChunk_eq (d : ChunkDimensions) (c : Coordinate) :
    directionOfBlockFacesInContactWithOtherChunk d c =
      (if c.x = (d.BLOCKS_PER_X_DIMENSION : Int) - 1 then [Direction.ToTheRight] else []) ++
      ((if c.x = 0 then [Direction.ToTheLeft] else []) ++
      ((if c.y = (d.BLOCKS_PER_Y_DIMENSION : Int) - 1 then [Direction.Above] else []) ++
      ((if c.y = 0 then [Direction.Below] else []) ++
      ((if c.z = (d.BLOCKS_PER_Z_DIMENSION : Int) - 1 then [Direction.InFront] else []) ++
      (if c.z = 0 then [Direction.Behind] else []))))) := by
  unfold directionOfBlockFacesInContactWithOtherChunk
  split_ifs <;> rfl

theorem outside_iff (d : ChunkDimensions) (c : Coordinate) :
    areLocalCoordinatesInsideChunk d c = false ↔
      ¬ ((0 ≤ c.x ∧ c.x < d.BLOCKS_PER_X_DIMENSION) ∧
         (0 ≤ c.y ∧ c.y < d.BLOCKS_PER_Y_DIMENSION) ∧
         (0 ≤ c.z ∧ c.z < d.BLOCKS_PER_Z_DIMENSION)) := by
  rw [← areLocalCoordinatesInsideChunk_iff]
  simp

theorem mem_ite_singleton {α : Type} (P : Prop) [Decidable P] (a b : α) :
    b ∈ (if P then [a] else []) ↔ P ∧ b = a := by
  split_ifs with h <;> simp [h]

theorem mem_directions_iff (d : ChunkDimensions) (c : Coordinate) (dir : Direction) :
    dir ∈ directionOfBlockFacesInContactWithOtherChunk d c ↔
      (c.x = (d.BLOCKS_PER_X_DIMENSION : Int) - 1 ∧ dir = Direction.ToTheRight) ∨
      (c.x = 0 ∧ dir = Direction.ToTheLeft) ∨
      (c.y = (d.BLOCKS_PER_Y_DIMENSION : Int) - 1 ∧ dir = Direction.Above) ∨
      (c.y = 0 ∧ dir = Direction.Below) ∨
      (c.z = (d.BLOCKS_PER_Z_DIMENSION : Int) - 1 ∧ dir = Direction.InFront) ∨
      (c.z = 0 ∧ dir = Direction.Behind) := by
  rw [directionOfBlockFacesInContactWithOtherChunk_eq]
  simp only [List.mem_append, mem_ite_singleton]

theorem mem_directionOfBlockFacesInContactWithOtherChunk (d : ChunkDimensions) (c : Coordinate)
    (hc : areLocalCoordinatesInsideChunk d c = true) (dir : Direction) :
    dir ∈ directionOfBlockFacesInContactWithOtherChunk d c ↔
      ∃ n, localNearbyBlockPosition c dir = .ok n ∧
        areLocalCoordinatesInsideChunk d n = false := by
  have hc' := (areLocalCoordinatesInsideChunk_iff d c).1 hc
  have hd := d.areInts
  have hyp : wrapInt (c.y + 1) = c.y + 1 := wrapInt_of_isInt32 (by unfold isInt32; omega)
  have hym : wrapInt (c.y - 1) = c.y - 1 := wrapInt_of_isInt32 (by unfold isInt32; omega)
  have hxp : wrapInt (c.x + 1) = c.x + 1 := wrapInt_of_isInt32 (by unfold isInt32; omega)
  have hxm : wrapInt (c.x - 1) = c.x - 1 := wrapInt_of_isInt32 (by unfold isInt32; omega)
  have hzp : wrapInt (c.z + 1) = c.z + 1 := wrapInt_of_isInt32 (by unfold isInt32; omega)
  have hzm : wrapInt (c.z - 1) = c.z - 1 := wrapInt_of_isInt32 (by unfold isInt32; omega)
  rw [mem_directions_iff]
  cases dir
  case None => simp [localNearbyBlockPosition]
  case Counter => simp [localNearbyBlockPosition]
  case Above =>
    simp only [localNearbyBlockPosition, Except.ok.injEq, exists_eq_left', hyp, outside_iff,
      reduceCtorEq, and_false, and_true, false_or, or_false]
    omega
  case Below =>
    simp only [localNearbyBlockPosition, Except.ok.injEq, exists_eq_left', hym, outside_iff,
      reduceCtorEq, and_false, and_true, false_or, or_false]
    omega
  case ToTheLeft =>
    simp only [localNearbyBlockPosition, Except.ok.injEq, exists_eq_left', hxm, outside_iff,
      reduceCtorEq, and_false, and_true, false_or, or_false]
    omega
  case ToTheRight =>
    simp only [localNearbyBlockPosition, Except.ok.injEq, exists_eq_left', hxp, outside_iff,
      reduceCtorEq, and_false, and_true, false_or, or_false]
    omega
  case InFront =>
    simp only [localNearbyBlockPosition, Except.ok.injEq, exists_eq_left', hzp, outside_iff,
      reduceCtorEq, and_false, and_true, false_or, or_false]
    omega
  case Behind =>
    simp only [localNearbyBlockPosition, Except.ok.injEq, exists_eq_left', hzm, outside_iff,
      reduceCtorEq, and_false, and_true, false_or, or_false]
    omega

theorem length_ite_singleton {α : Type} (P : Prop) [Decidable P] (a : α) :
    (if P then [a] else []).length = if P then 1 else 0 := by
  split_ifs <;> rfl

theorem nodup_directionOfBlockFacesInContactWithOtherChunk (d : ChunkDimensions)
    (c : Coordinate) : (directionOfBlockFacesInContactWithOtherChunk d c).Nodup := by
  rw [directionOfBlockFacesInContactWithOtherChunk_eq]
  split_ifs <;> decide

theorem length_directionOfBlockFacesInContactWithOtherChunk (d : ChunkDimensions)
    (c : Coordinate) :
    (directionOfBlockFacesInContactWithOtherChunk d c).length =
      (if c.x = (d.BLOCKS_PER_X_DIMENSION : Int) - 1 then 1 else 0) +
      ((if c.x = 0 then 1 else 0) +
      ((if c.y = (d.BLOCKS_PER_Y_DIMENSION : Int) - 1 then 1 else 0) +
      ((if c.y = 0 then 1 else 0) +
      ((if c.z = (d.BLOCKS_PER_Z_DIMENSION : Int) - 1 then 1 else 0) +
      (if c.z = 0 then 1 else 0))))) := by
  rw [directionOfBlockFacesInContactWithOtherChunk_eq]
  simp only [List.length_append, length_ite_singleton]

/-- C10. For every in-bounds local coordinate `c` of a chunk with at least two blocks
along each axis, `directionOfBlockFacesInContactWithOtherChunk(c)` has no
duplicates and holds exactly the directions `dir` for which
`localNearbyBlockPosition(c, dir)` returns a position that
`areLocalCoordinatesInsideChunk` rejects (for `None` and `Counter` no position is
returned, and they are not in the list); the list has at most three elements, and
exactly three when `c` is a corner. -/
theorem directionOfBlockFacesInContactWithOtherChunk_spec (d : ChunkDimensions)
    (c : Coordinate) (hc : areLocalCoordinatesInsideChunk d c = true)
    (hdim : 2 ≤ d.BLOCKS_PER_X_DIMENSION ∧ 2 ≤ d.BLOCKS_PER_Y_DIMENSION ∧
      2 ≤ d.BLOCKS_PER_Z_DIMENSION) :
    (directionOfBlockFacesInContactWithOtherChunk d c).Nodup ∧
    (∀ dir : Direction, dir ∈ directionOfBlockFacesInContactWithOtherChunk d c ↔
      ∃ n, localNearbyBlockPosition c dir = .ok n ∧
        areLocalCoordinatesInsideChunk d n = false) ∧
    (directionOfBlockFacesInContactWithOtherChunk d c).length ≤ 3 ∧
    (isCorner d c → (directionOfBlockFacesInContactWithOtherChunk d c).length = 3) := by
  refine ⟨nodup_directionOfBlockFacesInContactWithOtherChunk d c,
    mem_directionOfBlockFacesInContactWithOtherChunk d c hc, ?_, ?_⟩
  · rw [length_directionOfBlockFacesInContactWithOtherChunk]
    split_ifs <;> omega
  · intro hcorner
    unfold isCorner at hcorner
    rw [length_directionOfBlockFacesInContactWithOtherChunk]
    split_ifs <;> omega

/-- Witness of C10: the corner `(1, 0, 1)` of a chunk of two by two by two blocks
touches the chunks to the right, below and in front. -/
theorem directionOfBlockFacesInContactWithOtherChunk_spec_witness :
    areLocalCoordinatesInsideChunk sampleDimensions ⟨1, 0, 1⟩ = true ∧
    isCorner sampleDimensions ⟨1, 0, 1⟩ ∧
    directionOfBlockFacesInContactWithOtherChunk sampleDimensions ⟨1, 0, 1⟩ =
      [Direction.ToTheRight, Direction.Below, Direction.InFront] ∧
    (directionOfBlockFacesInContactWithOtherChunk sampleDimensions ⟨1, 0, 1⟩).length = 3 :=
  ⟨by decide, by decide, by decide,
   (directionOfBlockFacesInContactWithOtherChunk_spec sampleDimensions ⟨1, 0, 1⟩ (by decide)
      (by decide)).2.2.2 (by decide)⟩

/-! ## Terrain generation -/

theorem foldl_range_succ {α : Type} (f : α → Nat → α) (a : α) (n : Nat) :
    (List.range (n + 1)).foldl f a = f ((List.range n).foldl f a) n := by
  rw [List.range_succ, List.foldl_append]
  rfl

theorem generateTerrainCell_loop (t : TerrainParameters) (x z : Nat) (h : Rat)
    (blocks : ChunkBlocks) (n : Nat) :
    ((List.range n).foldl (generateTerrainCell t x z) (h, blocks)).1 =
        h - (n : Rat) * t.BLOCK_SIZE ∧
    ∀ c : Coordinate,
      ((List.range n).foldl (generateTerrainCell t x z) (h, blocks)).2 c =
        if c.x = x ∧ c.z = z ∧ 0 ≤ c.y ∧ c.y < n then
          (if h - (c.y : Rat) * t.BLOCK_SIZE > 0 then ⟨"Grass"⟩ else ⟨"Air"⟩)
        else blocks c := by
  induction n with
  | zero =>
    refine ⟨by simp, fun c => ?_⟩
    rw [if_neg (by omega)]
    rfl
  | succ n ih =>
    obtain ⟨ih1, ih2⟩ := ih
    rw [foldl_range_succ]
    refine ⟨?_, fun c => ?_⟩
    · simp only [generateTerrainCell, ih1]
      push_cast
      ring
    · simp only [generateTerrainCell, ih1]
      by_cases hc : c = ⟨(x : Int), (n : Int), (z : Int)⟩
      · subst hc
        have hcond : (x : Int) = x ∧ (z : Int) = z ∧ 0 ≤ (n : Int) ∧
            (n : Int) < ((n + 1 : Nat) : Int) := ⟨rfl, rfl, by omega, by omega⟩
        simp only [hcond, and_self, if_true, Int.cast_natCast]
        split_ifs <;> simp [ChunkBlocks.set]
      · have hset : ∀ (b : Block) (bl : ChunkBlocks),
            ChunkBlocks.set bl ⟨(x : Int), (n : Int), (z : Int)⟩ b c = bl c := by
          intro b bl
          simp [ChunkBlocks.set, hc]
        have hcond : (c.x = x ∧ c.z = z ∧ 0 ≤ c.y ∧ c.y < ((n + 1 : Nat) : Int)) ↔
            (c.x = x ∧ c.z = z ∧ 0 ≤ c.y ∧ c.y < (n : Int)) := by
          constructor
          · rintro ⟨h1, h2, h3, h4⟩
            refine ⟨h1, h2, h3, ?_⟩
            by_contra hlt
            apply hc
            obtain ⟨cx, cy, cz⟩ := c
            simp only at h1 h2 h3 h4 hlt
            simp only [Coordinate.mk.injEq]
            omega
          · rintro ⟨h1, h2, h3, h4⟩
            exact ⟨h1, h2, h3, by omega⟩
        have hgoal : (if h - (n : Rat) * t.BLOCK_SIZE > 0 then
              ChunkBlocks.set ((List.range n).foldl (generateTerrainCell t x z) (h, blocks)).2
                ⟨(x : Int), (n : Int), (z : Int)⟩ ⟨"Grass"⟩
            else
              ChunkBlocks.set ((List.range n).foldl (generateTerrainCell t x z) (h, blocks)).2
                ⟨(x : Int), (n : Int), (z : Int)⟩ ⟨"Air"⟩) c =
            ((List.range n).foldl (generateTerrainCell t x z) (h, blocks)).2 c := by
          split_ifs <;> exact hset _ _
        rw [hgoal, ih2 c]
        simp only [hcond]

theorem generateTerrainColumn_apply (d : ChunkDimensions) (t : TerrainParameters) (ch : Chunk)
    (x : Nat) (blocks : ChunkBlocks) (z : Nat) (c : Coordinate) :
    ch.generateTerrainColumn d t x blocks z c =
      if c.x = x ∧ c.z = z ∧ 0 ≤ c.y ∧ c.y < d.BLOCKS_PER_Y_DIMENSION then
        ch.generatedBlock t c
      else blocks c := by
  unfold Chunk.generateTerrainColumn
  rw [(generateTerrainCell_loop t x z _ blocks d.BLOCKS_PER_Y_DIMENSION).2 c]
  by_cases hc : c.x = x ∧ c.z = z ∧ 0 ≤ c.y ∧ c.y < d.BLOCKS_PER_Y_DIMENSION
  · rw [if_pos hc, if_pos hc]
    unfold Chunk.generatedBlock Chunk.columnHeight
    rw [hc.1, hc.2.1]
  · rw [if_neg hc, if_neg hc]

theorem generateTerrain_loop_z (d : ChunkDimensions) (t : TerrainParameters) (ch : Chunk)
    (x : Nat) (blocks : ChunkBlocks) (m : Nat) (c : Coordinate) :
    (List.range m).foldl (ch.generateTerrainColumn d t x) blocks c =
      if c.x = x ∧ (0 ≤ c.z ∧ c.z < m) ∧ 0 ≤ c.y ∧ c.y < d.BLOCKS_PER_Y_DIMENSION then
        ch.generatedBlock t c
      else blocks c := by
  induction m with
  | zero =>
    rw [if_neg (by omega)]
    rfl
  | succ m ih =>
    rw [foldl_range_succ, generateTerrainColumn_apply, ih]
    split_ifs <;> first
      | rfl
      | omega

theorem generateTerrain_loop_x (d : ChunkDimensions) (t : TerrainParameters) (ch : Chunk)
    (blocks : ChunkBlocks) (k : Nat) (c : Coordinate) :
    (List.range k).foldl (fun blocks x =>
        (List.range d.BLOCKS_PER_Z_DIMENSION).foldl (ch.generateTerrainColumn d t x) blocks)
        blocks c =
      if (0 ≤ c.x ∧ c.x < k) ∧ (0 ≤ c.z ∧ c.z < d.BLOCKS_PER_Z_DIMENSION) ∧
          0 ≤ c.y ∧ c.y < d.BLOCKS_PER_Y_DIMENSION then
        ch.generatedBlock t c
      else blocks c := by
  induction k with
  | zero =>
    rw [if_neg (by omega)]
    rfl
  | succ k ih =>
    rw [foldl_range_succ, generateTerrain_loop_z, ih]
    split_ifs <;> first
      | rfl
      | omega

theorem generateChunkTerrain_blocks (d : ChunkDimensions) (t : TerrainParameters) (ch : Chunk)
    (c : Coordinate) :
    (ch.generateChunkTerrain d t).mChunkOfBlocks c =
      if areLocalCoordinatesInsideChunk d c then ch.generatedBlock t c
      else ch.mChunkOfBlocks c := by
  unfold Chunk.generateChunkTerrain
  simp only
  rw [generateTerrain_loop_x]
  by_cases hc : areLocalCoordinatesInsideChunk d c = true
  · rw [if_pos hc, if_pos]
    rw [areLocalCoordinatesInsideChunk_iff] at hc
    omega
  · rw [if_neg hc, if_neg]
    rw [areLocalCoordinatesInsideChunk_iff] at hc
    omega

theorem columnHeight_sub_eq_heightBudget (t : TerrainParameters) (ch : Chunk) (c : Coordinate)
    (ho : isInt32 ch.mChunkPosition.y) :
    ch.columnHeight t c.x c.z - (c.y : Rat) * t.BLOCK_SIZE =
      heightBudget t ch.mChunkPosition c := by
  have hy : (ch.localToGlobalCoordinates ⟨c.x, 0, c.z⟩).y = ch.mChunkPosition.y := by
    show wrapInt (ch.mChunkPosition.y + 0) = _
    rw [Int.add_zero, wrapInt_of_isInt32 ho]
  unfold Chunk.columnHeight heightBudget
  rw [hy]
  rfl

theorem blockId_generatedBlock (t : TerrainParameters) (ch : Chunk) (c : Coordinate) :
    ((ch.generatedBlock t c).blockId = "Grass" ↔
        ch.columnHeight t c.x c.z - (c.y : Rat) * t.BLOCK_SIZE > 0) ∧
    ((ch.generatedBlock t c).blockId = "Air" ↔
        ¬ ch.columnHeight t c.x c.z - (c.y : Rat) * t.BLOCK_SIZE > 0) := by
  unfold Chunk.generatedBlock
  split_ifs with h
  · simp [Block.blockId, h]
  · simp [Block.blockId, h]

/-- C8. After `generateChunkTerrain` on a chunk with origin `o` (a value of the
coordinate type), for every in-bounds local `(x, y, z)` the cell holds "Grass" if
and only if the remaining height budget
`((noise(o.x + x, o.z + z) + 1) / 2) * MAX_HEIGHT_MAP - o.y - y * BLOCK_SIZE`,
computed exactly, is strictly positive, and "Air" if and only if it is not; so
every cell of the array holds one of the two types. -/
theorem generateChunkTerrain_cell (d : ChunkDimensions) (t : TerrainParameters) (ch : Chunk)
    (c : Coordinate) (hc : areLocalCoordinatesInsideChunk d c = true)
    (ho : ch.mChunkPosition.isRepresentable) :
    (((ch.generateChunkTerrain d t).mChunkOfBlocks c).blockId = "Grass" ↔
        heightBudget t ch.mChunkPosition c > 0) ∧
    (((ch.generateChunkTerrain d t).mChunkOfBlocks c).blockId = "Air" ↔
        ¬ heightBudget t ch.mChunkPosition c > 0) ∧
    (((ch.generateChunkTerrain d t).mChunkOfBlocks c).blockId = "Grass" ∨
      ((ch.generateChunkTerrain d t).mChunkOfBlocks c).blockId = "Air") := by
  rw [generateChunkTerrain_blocks, if_pos hc,
    ← columnHeight_sub_eq_heightBudget t ch c ho.2.1]
  obtain ⟨h1, h2⟩ := blockId_generatedBlock t ch c
  refine ⟨h1, h2, ?_⟩
  by_cases h : ch.columnHeight t c.x c.z - (c.y : Rat) * t.BLOCK_SIZE > 0
  · exact Or.inl (h1.2 h)
  · exact Or.inr (h2.2 h)

/-- Witness of C8: in the standalone sample chunk every column has the height 1, so
the cell `(0, 0, 0)` becomes "Grass" and the cell `(0, 1, 0)` above it "Air". -/
theorem generateChunkTerrain_cell_witness :
    areLocalCoordinatesInsideChunk sampleDimensions ⟨0, 1, 0⟩ = true ∧
    sampleChunk.mChunkPosition.isRepresentable ∧
    heightBudget sampleTerrain sampleChunk.mChunkPosition ⟨0, 0, 0⟩ = 1 ∧
    heightBudget sampleTerrain sampleChunk.mChunkPosition ⟨0, 1, 0⟩ = 0 ∧
    ((sampleChunk.generateChunkTerrain sampleDimensions sampleTerrain).mChunkOfBlocks
        ⟨0, 0, 0⟩).blockId = "Grass" ∧
    ((sampleChunk.generateChunkTerrain sampleDimensions sampleTerrain).mChunkOfBlocks
        ⟨0, 1, 0⟩).blockId = "Air" := by
  have h0 : heightBudget sampleTerrain sampleChunk.mChunkPosition ⟨0, 0, 0⟩ = 1 := by
    norm_num [heightBudget, sampleTerrain, sampleChunk]
  have h1 : heightBudget sampleTerrain sampleChunk.mChunkPosition ⟨0, 1, 0⟩ = 0 := by
    norm_num [heightBudget, sampleTerrain, sampleChunk]
  exact ⟨by decide, by decide, h0, h1,
    (generateChunkTerrain_cell sampleDimensions sampleTerrain sampleChunk ⟨0, 0, 0⟩
      (by decide) (by decide)).1.2 (by rw [h0]; norm_num),
    (generateChunkTerrain_cell sampleDimensions sampleTerrain sampleChunk ⟨0, 1, 0⟩
      (by decide) (by decide)).2.1.2 (by rw [h1]; norm_num)⟩

theorem coordinate_eq_of_components (a b : Coordinate) (hx : a.x = b.x) (hy : a.y = b.y)
    (hz : a.z = b.z) : a = b := by
  obtain ⟨ax, ay, az⟩ := a
  obtain ⟨bx, by_, bz⟩ := b
  simp only at hx hy hz
  rw [hx, hy, hz]

theorem grid_cell_unique (n o1 o2 c1 c2 : Int) (h : o1 + c1 = o2 + c2) (ho1 : o1 % n = 0)
    (ho2 : o2 % n = 0) (hc1 : 0 ≤ c1 ∧ c1 < n) (hc2 : 0 ≤ c2 ∧ c2 < n) :
    o1 = o2 ∧ c1 = c2 := by
  have e1 : (o1 + c1) % n = c1 := by
    rw [Int.add_emod, ho1, zero_add, Int.emod_emod_of_dvd _ (dvd_refl n),
      Int.emod_eq_of_lt hc1.1 hc1.2]
  have e2 : (o2 + c2) % n = c2 := by
    rw [Int.add_emod, ho2, zero_add, Int.emod_emod_of_dvd _ (dvd_refl n),
      Int.emod_eq_of_lt hc2.1 hc2.2]
  have hc : c1 = c2 := by rw [← e1, ← e2, h]
  exact ⟨by omega, hc⟩

theorem same_cell_of_same_global (d : ChunkDimensions) (ch1 ch2 : Chunk) (c1 c2 : Coordinate)
    (h1 : onChunkGrid d ch1.mChunkPosition) (h2 : onChunkGrid d ch2.mChunkPosition)
    (hc1 : areLocalCoordinatesInsideChunk d c1 = true)
    (hc2 : areLocalCoordinatesInsideChunk d c2 = true)
    (hg : ch1.localToGlobalCoordinates c1 = ch2.localToGlobalCoordinates c2) :
    ch1.mChunkPosition = ch2.mChunkPosition ∧ c1 = c2 := by
  obtain ⟨⟨ax1, ay1, az1⟩, ⟨rx1, ry1, rz1⟩, bx1, by1, bz1⟩ := h1
  obtain ⟨⟨ax2, ay2, az2⟩, ⟨rx2, ry2, rz2⟩, bx2, by2, bz2⟩ := h2
  have hin1 := (areLocalCoordinatesInsideChunk_iff d c1).1 hc1
  have hin2 := (areLocalCoordinatesInsideChunk_iff d c2).1 hc2
  unfold isInt32 at rx1 ry1 rz1 rx2 ry2 rz2
  have hgx : wrapInt (ch1.mChunkPosition.x + c1.x) = wrapInt (ch2.mChunkPosition.x + c2.x) :=
    congrArg Coordinate.x hg
  have hgy : wrapInt (ch1.mChunkPosition.y + c1.y) = wrapInt (ch2.mChunkPosition.y + c2.y) :=
    congrArg Coordinate.y hg
  have hgz : wrapInt (ch1.mChunkPosition.z + c1.z) = wrapInt (ch2.mChunkPosition.z + c2.z) :=
    congrArg Coordinate.z hg
  rw [wrapInt_of_isInt32 (by unfold isInt32; omega),
    wrapInt_of_isInt32 (by unfold isInt32; omega)] at hgx hgy hgz
  obtain ⟨hox, hcx⟩ := grid_cell_unique _ _ _ _ _ hgx ax1 ax2 hin1.1 hin2.1
  obtain ⟨hoy, hcy⟩ := grid_cell_unique _ _ _ _ _ hgy ay1 ay2 hin1.2.1 hin2.2.1
  obtain ⟨hoz, hcz⟩ := grid_cell_unique _ _ _ _ _ hgz az1 az2 hin1.2.2 hin2.2.2
  exact ⟨coordinate_eq_of_components _ _ hox hoy hoz,
    coordinate_eq_of_components _ _ hcx hcy hcz⟩

theorem generatedBlock_of_same_origin (t : TerrainParameters) (ch1 ch2 : Chunk)
    (ho : ch1.mChunkPosition = ch2.mChunkPosition) (c : Coordinate) :
    ch1.generatedBlock t c = ch2.generatedBlock t c := by
  unfold Chunk.generatedBlock Chunk.columnHeight Chunk.localToGlobalCoordinates
  rw [ho]

theorem foldlM_withQuads (ch : Chunk) (f : Chunk → Nat → Except Fault Chunk)
    (g : Nat → List Quad) (l : List Nat)
    (h : ∀ i ∈ l, ∀ qs, f (ch.withQuads qs) i = .ok (ch.withQuads (qs ++ g i)))
    (qs : List Quad) :
    l.foldlM f (ch.withQuads qs) = .ok (ch.withQuads (qs ++ l.flatMap g)) := by
  induction l generalizing qs with
  | nil => simp [pure, Except.pure]
  | cons i l ih =>
    rw [List.foldlM_cons, h i (List.mem_cons_self i l) qs]
    show l.foldlM f (ch.withQuads (qs ++ g i)) = _
    rw [ih (fun j hj => h j (List.mem_cons_of_mem i hj)), List.flatMap_cons, List.append_assoc]

theorem isSupported_ofIndex (i : Nat) (hi : i < Face.Counter.toIndex) :
    (Face.ofIndex i).isSupported := by
  have hi' : i < 6 := hi
  interval_cases i <;> (unfold Face.isSupported Face.ofIndex; decide)

theorem createBlockMeshFace_withQuads (d : ChunkDimensions) (blockMap : BlockMap) (ch : Chunk)
    (pos : Coordinate) (hpos : areLocalCoordinatesInsideChunk d pos = true) (i : Nat)
    (hi : i < Face.Counter.toIndex) (qs : List Quad) :
    Chunk.createBlockMeshFace d blockMap (ch.mChunkOfBlocks pos) pos (ch.withQuads qs) i =
      .ok (ch.withQuads (qs ++ ch.faceQuads d blockMap pos i)) := by
  have hvis : (ch.withQuads qs).doesBlockFaceHasTransparentNeighbor d blockMap (Face.ofIndex i)
      pos = .ok (ch.neighbourTransparency d blockMap (cellBeyond (Face.ofIndex i) pos)) :=
    doesBlockFaceHasTransparentNeighbor_eq d blockMap ch (Face.ofIndex i) pos
      (isSupported_ofIndex i hi) hpos
  unfold Chunk.createBlockMeshFace Chunk.faceQuads
  rw [hvis]
  cases ch.neighbourTransparency d blockMap (cellBeyond (Face.ofIndex i) pos)
  · simp
  · simp [Chunk.withQuads, MeshBuilder.addQuad, Chunk.quadOf]

theorem prepareMeshCell_withQuads (d : ChunkDimensions) (blockMap : BlockMap) (ch : Chunk)
    (x y z : Nat) (hx : x < d.BLOCKS_PER_X_DIMENSION) (hy : y < d.BLOCKS_PER_Y_DIMENSION)
    (hz : z < d.BLOCKS_PER_Z_DIMENSION) (qs : List Quad) :
    Chunk.prepareMeshCell d blockMap x y (ch.withQuads qs) z =
      .ok (ch.withQuads (qs ++ ch.cellQuads d blockMap ⟨x, y, z⟩)) := by
  have hpos : areLocalCoordinatesInsideChunk d ⟨x, y, z⟩ = true := by
    rw [areLocalCoordinatesInsideChunk_iff]
    simp only
    omega
  have hblock : (ch.withQuads qs).localBlock d ⟨x, y, z⟩ = .ok (ch.mChunkOfBlocks ⟨x, y, z⟩) :=
    index_of_inside d _ _ hpos
  unfold Chunk.prepareMeshCell Chunk.cellQuads
  rw [hblock]
  simp only
  split_ifs with hair
  · simp
  · unfold Chunk.createBlockMesh
    rw [hblock]
    exact foldlM_withQuads ch _ _ _
      (fun i hi qs' => createBlockMeshFace_withQuads d blockMap ch _ hpos i
        (List.mem_range.1 hi) qs') qs

theorem prepareMesh_withQuads (d : ChunkDimensions) (blockMap : BlockMap) (ch : Chunk)
    (qs : List Quad) :
    Chunk.prepareMesh d blockMap (ch.withQuads qs) =
      .ok (ch.withQuads (qs ++ ch.scanQuads d blockMap)) := by
  unfold Chunk.prepareMesh Chunk.scanQuads
  refine foldlM_withQuads ch _ _ _ (fun x hx qs1 => ?_) qs
  refine foldlM_withQuads ch _ _ _ (fun y hy qs2 => ?_) qs1
  refine foldlM_withQuads ch _ _ _ (fun z hz qs3 => ?_) qs2
  exact prepareMeshCell_withQuads d blockMap ch x y z (List.mem_range.1 hx)
    (List.mem_range.1 hy) (List.mem_range.1 hz) qs3

theorem nodup_flatMap_of_key {ι α κ : Type} (l : List ι) (g : ι → List α) (key : α → κ)
    (k : ι → κ) (hl : l.Nodup) (hk : ∀ i ∈ l, ∀ j ∈ l, k i = k j → i = j)
    (hkey : ∀ i ∈ l, ∀ a ∈ g i, key a = k i) (hg : ∀ i ∈ l, (g i).Nodup) :
    (l.flatMap g).Nodup := by
  rw [List.nodup_flatMap]
  refine ⟨hg, hl.pairwise_of_forall_ne (fun i hi j hj hne => ?_)⟩
  show List.Disjoint (g i) (g j)
  rw [List.disjoint_left]
  intro a hai haj
  exact hne (hk i hi j hj ((hkey i hi a hai).symm.trans (hkey j hj a haj)))

theorem ofIndex_toIndex (f : Face) : Face.ofIndex f.toIndex = f := by
  cases f <;> rfl

theorem ofIndex_injective (i j : Nat) (hi : i < Face.Counter.toIndex)
    (hj : j < Face.Counter.toIndex) (h : Face.ofIndex i = Face.ofIndex j) : i = j := by
  have hi' : i < 6 := hi
  have hj' : j < 6 := hj
  interval_cases i <;> interval_cases j <;> first
    | rfl
    | exact absurd h (by decide)

theorem mem_faceQuads (d : ChunkDimensions) (blockMap : BlockMap) (ch : Chunk) (pos : Coordinate)
    (i : Nat) (q : Quad) :
    q ∈ ch.faceQuads d blockMap pos i ↔
      ch.neighbourTransparency d blockMap (cellBeyond (Face.ofIndex i) pos) = true ∧
        q = ch.quadOf blockMap pos (Face.ofIndex i) := by
  unfold Chunk.faceQuads
  split_ifs with h <;> simp [h]

theorem doesBlockFaceHasTransparentNeighbor_true_iff (d : ChunkDimensions) (blockMap : BlockMap)
    (ch : Chunk) (f : Face) (p : Coordinate) (hp : areLocalCoordinatesInsideChunk d p = true) :
    ch.doesBlockFaceHasTransparentNeighbor d blockMap f p = .ok true ↔
      f.isSupported ∧ ch.neighbourTransparency d blockMap (cellBeyond f p) = true := by
  by_cases hf : f.isSupported
  · rw [doesBlockFaceHasTransparentNeighbor_eq d blockMap ch f p hf hp]
    simp [hf]
  · have hc : f = Face.Counter := by
      unfold Face.isSupported at hf
      simpa using hf
    subst hc
    simp [Chunk.doesBlockFaceHasTransparentNeighbor, Face.isSupported]

theorem mem_cellQuads (d : ChunkDimensions) (blockMap : BlockMap) (ch : Chunk) (pos : Coordinate)
    (hpos : areLocalCoordinatesInsideChunk d pos = true) (q : Quad) :
    q ∈ ch.cellQuads d blockMap pos ↔
      ∃ f, ch.quadDue d blockMap pos f ∧ q = ch.quadOf blockMap pos f := by
  unfold Chunk.cellQuads Chunk.quadDue
  split_ifs with hair
  · simp [hair]
  · simp only [List.mem_flatMap, List.mem_range, mem_faceQuads, ne_eq, hair, not_false_eq_true,
      hpos, true_and, doesBlockFaceHasTransparentNeighbor_true_iff d blockMap ch _ pos hpos]
    constructor
    · rintro ⟨i, hi, hvis, hq⟩
      exact ⟨Face.ofIndex i, ⟨isSupported_ofIndex i hi, hvis⟩, hq⟩
    · rintro ⟨f, ⟨hf, hvis⟩, hq⟩
      refine ⟨f.toIndex, ?_, ?_⟩
      · cases f <;> first
          | exact absurd rfl hf
          | (show _ < 6; decide)
      · rw [ofIndex_toIndex]
        exact ⟨hvis, hq⟩

theorem position_of_mem_cellQuads (d : ChunkDimensions) (blockMap : BlockMap) (ch : Chunk)
    (pos : Coordinate) (q : Quad) (h : q ∈ ch.cellQuads d blockMap pos) : q.position = pos := by
  unfold Chunk.cellQuads at h
  split_ifs at h with hair
  · simp at h
  · simp only [List.mem_flatMap, mem_faceQuads] at h
    obtain ⟨i, -, -, hq⟩ := h
    rw [hq]
    rfl

theorem nodup_cellQuads (d : ChunkDimensions) (blockMap : BlockMap) (ch : Chunk)
    (pos : Coordinate) : (ch.cellQuads d blockMap pos).Nodup := by
  unfold Chunk.cellQuads
  split_ifs with hair
  · exact List.nodup_nil
  · refine nodup_flatMap_of_key _ _ Quad.face Face.ofIndex (List.nodup_range _) ?_ ?_ ?_
    · intro i hi j hj h
      exact ofIndex_injective i j (List.mem_range.1 hi) (List.mem_range.1 hj) h
    · intro i _ a ha
      rw [((mem_faceQuads d blockMap ch pos i a).1 ha).2]
      rfl
    · intro i _
      unfold Chunk.faceQuads
      split_ifs <;> simp

theorem mem_scanQuads (d : ChunkDimensions) (blockMap : BlockMap) (ch : Chunk) (q : Quad) :
    q ∈ ch.scanQuads d blockMap ↔
      ∃ p f, ch.quadDue d blockMap p f ∧ q = ch.quadOf blockMap p f := by
  unfold Chunk.scanQuads
  simp only [List.mem_flatMap, List.mem_range]
  constructor
  · rintro ⟨x, hx, y, hy, z, hz, hq⟩
    have hpos : areLocalCoordinatesInsideChunk d ⟨x, y, z⟩ = true := by
      rw [areLocalCoordinatesInsideChunk_iff]
      simp only
      omega
    obtain ⟨f, hdue, hqf⟩ := (mem_cellQuads d blockMap ch _ hpos q).1 hq
    exact ⟨_, f, hdue, hqf⟩
  · rintro ⟨p, f, hdue, hq⟩
    have hpos := hdue.1
    have hin := (areLocalCoordinatesInsideChunk_iff d p).1 hpos
    have hp : (⟨(p.x.toNat : Int), (p.y.toNat : Int), (p.z.toNat : Int)⟩ : Coordinate) = p := by
      obtain ⟨px, py, pz⟩ := p
      simp only at hin
      simp only [Coordinate.mk.injEq]
      omega
    refine ⟨p.x.toNat, by omega, p.y.toNat, by omega, p.z.toNat, by omega, ?_⟩
    rw [hp]
    exact (mem_cellQuads d blockMap ch p hpos q).2 ⟨f, hdue, hq⟩

theorem nodup_scanQuads (d : ChunkDimensions) (blockMap : BlockMap) (ch : Chunk) :
    (ch.scanQuads d blockMap).Nodup := by
  unfold Chunk.scanQuads
  refine nodup_flatMap_of_key _ _ (fun q => q.position.x) (fun x : Nat => (x : Int))
    (List.nodup_range _) (fun i _ j _ h => Int.ofNat.inj h) ?_ ?_
  · intro x _ q hq
    simp only [List.mem_flatMap] at hq
    obtain ⟨y, -, z, -, hq⟩ := hq
    show q.position.x = x
    rw [position_of_mem_cellQuads d blockMap ch _ q hq]
  · intro x _
    refine nodup_flatMap_of_key _ _ (fun q => q.position.y) (fun y : Nat => (y : Int))
      (List.nodup_range _) (fun i _ j _ h => Int.ofNat.inj h) ?_ ?_
    · intro y _ q hq
      simp only [List.mem_flatMap] at hq
      obtain ⟨z, -, hq⟩ := hq
      show q.position.y = y
      rw [position_of_mem_cellQuads d blockMap ch _ q hq]
    · intro y _
      refine nodup_flatMap_of_key _ _ (fun q => q.position.z) (fun z : Nat => (z : Int))
        (List.nodup_range _) (fun i _ j _ h => Int.ofNat.inj h) ?_ ?_
      · intro z _ q hq
        show q.position.z = z
        rw [position_of_mem_cellQuads d blockMap ch _ q hq]
      · intro z _
        exact nodup_cellQuads d blockMap ch _

theorem length_scanQuads (d : ChunkDimensions) (blockMap : BlockMap) (ch : Chunk) :
    (ch.scanQuads d blockMap).length =
      Set.ncard {pf : Coordinate × Face | ch.quadDue d blockMap pf.1 pf.2} := by
  have himage : {pf : Coordinate × Face | ch.quadDue d blockMap pf.1 pf.2} =
      (fun q : Quad => (q.position, q.face)) '' {q | q ∈ ch.scanQuads d blockMap} := by
    ext ⟨p, f⟩
    simp only [Set.mem_setOf_eq, Set.mem_image, mem_scanQuads]
    constructor
    · intro hdue
      exact ⟨ch.quadOf blockMap p f, ⟨p, f, hdue, rfl⟩, rfl⟩
    · rintro ⟨q, ⟨p', f', hdue, hq⟩, hpf⟩
      rw [hq] at hpf
      simp only [Chunk.quadOf, Prod.mk.injEq] at hpf
      rw [← hpf.1, ← hpf.2]
      exact hdue
  have hinj : Set.InjOn (fun q : Quad => (q.position, q.face))
      {q | q ∈ ch.scanQuads d blockMap} := by
    intro q1 h1 q2 h2 h
    simp only [Set.mem_setOf_eq, mem_scanQuads] at h1 h2
    obtain ⟨p1, f1, -, e1⟩ := h1
    obtain ⟨p2, f2, -, e2⟩ := h2
    rw [e1, e2] at h
    simp only [Chunk.quadOf, Prod.mk.injEq] at h
    rw [e1, e2, h.1, h.2]
  rw [himage, Set.ncard_image_of_injOn hinj, ← List.coe_toFinset, Set.ncard_coe_Finset,
    List.toFinset_card_of_nodup (nodup_scanQuads d blockMap ch)]

/-- C4. `prepareMesh`, run on a mesh builder without quads, returns normally, leaves
the block array as it is, and leaves in the builder exactly one quad for every pair
of a local position `p` and a face `f` such that `p` is in bounds, the block at `p`
is not "Air" and `doesBlockFaceHasTransparentNeighbor(f, p)` is true: that quad
carries the face `f`, the texture coordinates of the texture id of the block for
`f`, and the position `p`. No other quad is added (none for an "Air" block, none for
a face that is not visible), no quad occurs twice, and the number of quads is the
number of such pairs. -/
theorem prepareMesh_quads (d : ChunkDimensions) (blockMap : BlockMap) (ch : Chunk)
    (hempty : ch.mMeshBuilder.quads = []) :
    ∃ ch' : Chunk, ch.prepareMesh d blockMap = .ok ch' ∧
      ch'.mChunkOfBlocks = ch.mChunkOfBlocks ∧
      ch'.mMeshBuilder.quads.Nodup ∧
      (∀ q : Quad, q ∈ ch'.mMeshBuilder.quads ↔
        ∃ p f, ch.quadDue d blockMap p f ∧
          q = ⟨f, ch.mTexturePack.normalizedCoordinates
            ((ch.mChunkOfBlocks p).blockTextureId blockMap f), p⟩) ∧
      (∀ p f, ch.quadDue d blockMap p f →
        ch'.mMeshBuilder.quads.count ⟨f, ch.mTexturePack.normalizedCoordinates
            ((ch.mChunkOfBlocks p).blockTextureId blockMap f), p⟩ = 1 ∧
        ∀ q ∈ ch'.mMeshBuilder.quads, q.position = p → q.face = f →
          q = ⟨f, ch.mTexturePack.normalizedCoordinates
            ((ch.mChunkOfBlocks p).blockTextureId blockMap f), p⟩) ∧
      (∀ q ∈ ch'.mMeshBuilder.quads, (ch.mChunkOfBlocks q.position).blockId ≠ "Air" ∧
        ch.doesBlockFaceHasTransparentNeighbor d blockMap q.face q.position = .ok true) ∧
      ch'.mMeshBuilder.quads.length =
        Set.ncard {pf : Coordinate × Face | ch.quadDue d blockMap pf.1 pf.2} := by
  have hch : ch = ch.withQuads [] := by
    obtain ⟨o, tp, pc, ⟨qs⟩, blocks, mgr, ev⟩ := ch
    simp only at hempty
    rw [hempty]
    rfl
  refine ⟨ch.withQuads (ch.scanQuads d blockMap), ?_, rfl, nodup_scanQuads d blockMap ch,
    fun q => mem_scanQuads d blockMap ch q, ?_, ?_, length_scanQuads d blockMap ch⟩
  · have h := prepareMesh_withQuads d blockMap ch []
    rw [← hch, List.nil_append] at h
    exact h
  · intro p f hdue
    refine ⟨List.count_eq_one_of_mem (nodup_scanQuads d blockMap ch)
      ((mem_scanQuads d blockMap ch _).2 ⟨p, f, hdue, rfl⟩), ?_⟩
    intro q hq hp hf
    obtain ⟨p', f', -, e⟩ := (mem_scanQuads d blockMap ch q).1 hq
    rw [e] at hp hf ⊢
    simp only [Chunk.quadOf] at hp hf ⊢
    rw [hp, hf]
  · intro q hq
    obtain ⟨p, f, hdue, e⟩ := (mem_scanQuads d blockMap ch q).1 hq
    rw [e]
    exact ⟨hdue.2.1, hdue.2.2⟩

/-- Witness of C4: the standalone sample chunk holds four "Grass" cells under four "Air"
cells; each "Grass" cell shows its top, its bottom and its two outward sides, sixteen
quads in all, one for each of the sixteen pairs for which a quad is due. -/
theorem prepareMesh_quads_witness :
    sampleChunk.mMeshBuilder.quads = [] ∧
    ∃ ch' : Chunk, sampleChunk.prepareMesh sampleDimensions sampleBlockMap = .ok ch' ∧
      ch'.mMeshBuilder.quads.length = 16 ∧
      ch'.mMeshBuilder.quads.Nodup ∧
      Set.ncard {pf : Coordinate × Face |
        sampleChunk.quadDue sampleDimensions sampleBlockMap pf.1 pf.2} = 16 := by
  obtain ⟨ch', h, -, hnodup, -, -, -, hlen⟩ :=
    prepareMesh_quads sampleDimensions sampleBlockMap sampleChunk rfl
  have h16 : ∃ ch'' : Chunk, sampleChunk.prepareMesh sampleDimensions sampleBlockMap = .ok ch'' ∧
      ch''.mMeshBuilder.quads.length = 16 := ⟨_, rfl, rfl⟩
  obtain ⟨ch'', h'', hl⟩ := h16
  rw [h] at h''
  cases h''
  exact ⟨rfl, ch', h, hl, hnodup, hlen ▸ hl⟩

/-! ## Rebuild requests -/

theorem rebuildFast_of_no_manager (ch : Chunk) (h : ch.mChunkManager = false) :
    ch.rebuildFast = ch := by
  unfold Chunk.rebuildFast
  rw [if_neg (by simp [h])]

theorem rebuildSlow_of_no_manager (ch : Chunk) (h : ch.mChunkManager = false) :
    ch.rebuildSlow = ch := by
  unfold Chunk.rebuildSlow
  rw [if_neg (by simp [h])]

theorem rebuildFast_of_attached (ch : Chunk) (parent : ChunkContainer)
    (hm : ch.mChunkManager = true) (hp : ch.mParentContainer = some parent) :
    ch.rebuildFast =
      { ch with
        mEvents := ch.mEvents ++ [Event.managerRebuildFast (parent.findChunk ch.mChunkPosition)] } := by
  unfold Chunk.rebuildFast
  rw [if_pos (by simp [hm, hp])]
  obtain ⟨o, tp, pc, mb, blocks, mgr, ev⟩ := ch
  simp only at hp
  subst hp
  rfl

theorem rebuildSlow_of_attached (ch : Chunk) (parent : ChunkContainer)
    (hm : ch.mChunkManager = true) (hp : ch.mParentContainer = some parent) :
    ch.rebuildSlow =
      { ch with
        mEvents := ch.mEvents ++ [Event.managerRebuildSlow (parent.findChunk ch.mChunkPosition)] } := by
  unfold Chunk.rebuildSlow
  rw [if_pos (by simp [hm, hp])]
  obtain ⟨o, tp, pc, mb, blocks, mgr, ev⟩ := ch
  simp only at hp
  subst hp
  rfl

theorem rebuildMesh_eq (d : ChunkDimensions) (blockMap : BlockMap) (ch : Chunk) :
    ch.rebuildMesh d blockMap = .ok (ch.withQuads (ch.scanQuads d blockMap)) := by
  have h := prepareMesh_withQuads d blockMap ch []
  rw [List.nil_append] at h
  exact h

theorem rebuildFast_of_no_container (ch : Chunk) (h : ch.mParentContainer = none) :
    ch.rebuildFast = ch := by
  unfold Chunk.rebuildFast
  rw [if_neg (by simp [h])]

/-- C6. For every in-bounds local coordinate `c`, `removeLocalBlock(c)` returns
normally, and what it returns is `rebuildFast()` applied to the chunk in which the
cell has been written under the guard. Afterwards the block at `c` has the type
"Air", every other cell of the block array holds the block it held before, and the
chunk origin is unchanged. For a chunk attached to a manager and a container the
actions of the call are exactly: the guard is acquired, the cell is written, the
guard is released, and then the fast-rebuild request is made to the manager, with
the handle the container gives for this chunk. For a chunk without manager or
without container they are the first three only. -/
theorem removeLocalBlock_effect (d : ChunkDimensions) (ch : Chunk) (c : Coordinate)
    (hc : areLocalCoordinatesInsideChunk d c = true) :
    ∃ written : Chunk,
      ch.removeLocalBlock d c = .ok written.rebuildFast ∧
      (written.mChunkOfBlocks c).blockId = "Air" ∧
      written.mEvents = ch.mEvents ++
        [Event.guardAcquired, Event.cellWritten c "Air", Event.guardReleased] ∧
      (written.rebuildFast.mChunkOfBlocks c).blockId = "Air" ∧
      (∀ c' : Coordinate, c' ≠ c →
        written.rebuildFast.mChunkOfBlocks c' = ch.mChunkOfBlocks c') ∧
      written.rebuildFast.mChunkPosition = ch.mChunkPosition ∧
      (∀ parent : ChunkContainer, ch.mChunkManager = true →
        ch.mParentContainer = some parent →
        written.rebuildFast.mEvents = ch.mEvents ++
          [Event.guardAcquired, Event.cellWritten c "Air", Event.guardReleased,
            Event.managerRebuildFast (parent.findChunk ch.mChunkPosition)]) ∧
      (ch.mChunkManager = false ∨ ch.mParentContainer = none →
        written.rebuildFast.mEvents = ch.mEvents ++
          [Event.guardAcquired, Event.cellWritten c "Air", Event.guardReleased]) := by
  unfold Chunk.removeLocalBlock
  rw [index_of_inside d _ c hc]
  refine ⟨_, rfl, ?_, rfl, ?_, ?_, ?_, ?_, ?_⟩
  · simp [ChunkBlocks.set, Block.setBlockType, Block.blockId]
  · rw [(rebuildFast_frame _).1]
    simp [ChunkBlocks.set, Block.setBlockType, Block.blockId]
  · intro c' hne
    rw [(rebuildFast_frame _).1]
    simp [ChunkBlocks.set, hne]
  · rw [(rebuildFast_frame _).2.1]
  · intro parent hm hp
    rw [rebuildFast_of_attached _ parent]
    · simp
    · exact hm
    · exact hp
  · rintro (hm | hp)
    · rw [rebuildFast_of_no_manager]
      exact hm
    · rw [rebuildFast_of_no_container]
      exact hp

/-- Witness of C6: the "Grass" cell `(1, 0, 0)` of the left sample chunk, which is
attached to a manager and held by its container in slot 0, is removed: the request
to the manager is made, as the last of the four actions. -/
theorem removeLocalBlock_effect_witness :
    areLocalCoordinatesInsideChunk sampleDimensions ⟨1, 0, 0⟩ = true ∧
    (leftChunk.mChunkOfBlocks ⟨1, 0, 0⟩).blockId = "Grass" ∧
    leftChunk.mChunkManager = true ∧ leftChunk.mParentContainer = some sampleContainer ∧
    sampleContainer.findChunk leftChunk.mChunkPosition = some 0 ∧
    ∃ written : Chunk,
      leftChunk.removeLocalBlock sampleDimensions ⟨1, 0, 0⟩ = .ok written.rebuildFast ∧
      (written.rebuildFast.mChunkOfBlocks ⟨1, 0, 0⟩).blockId = "Air" ∧
      written.rebuildFast.mEvents =
        [Event.guardAcquired, Event.cellWritten ⟨1, 0, 0⟩ "Air", Event.guardReleased,
          Event.managerRebuildFast (some 0)] := by
  obtain ⟨written, hcall, -, -, hair, -, -, hattached, -⟩ :=
    removeLocalBlock_effect sampleDimensions leftChunk ⟨1, 0, 0⟩ (by decide)
  exact ⟨by decide, by decide, rfl, rfl, by decide, written, hcall, hair,
    hattached sampleContainer rfl rfl⟩

/-- Counterexample to C11 as stated: the standalone sample chunk carries the mesh that
`prepareMesh` derives from its blocks, sixteen quads. After `removeLocalBlock` of the
cell `(0, 0, 0)` the cell holds "Air", yet the mesh builder still holds the same
sixteen quads, among them quads of the removed block; the geometry derived from the
current block array, which `rebuildMesh` would give, has fourteen quads and none at
`(0, 0, 0)`. -/
theorem standalone_rebuild_counterexample :
    meshedChunk.mChunkManager = false ∧
    meshedChunk.belongsToAnyChunkContainer = false ∧
    sampleChunk.prepareMesh sampleDimensions sampleBlockMap = .ok meshedChunk ∧
    ∃ ch1 : Chunk, meshedChunk.removeLocalBlock sampleDimensions ⟨0, 0, 0⟩ = .ok ch1 ∧
      (ch1.mChunkOfBlocks ⟨0, 0, 0⟩).blockId = "Air" ∧
      ch1.mMeshBuilder.quads = meshedChunk.mMeshBuilder.quads ∧
      ch1.mMeshBuilder.quads.length = 16 ∧
      (∃ q ∈ ch1.mMeshBuilder.quads, q.position = ⟨0, 0, 0⟩) ∧
      ∃ ch2 : Chunk, ch1.rebuildMesh sampleDimensions sampleBlockMap = .ok ch2 ∧
        ch2.mMeshBuilder.quads.length = 14 ∧
        ∀ q ∈ ch2.mMeshBuilder.quads, q.position ≠ ⟨0, 0, 0⟩ := by
  refine ⟨rfl, rfl, ?_, _, rfl, rfl, rfl, rfl, ?_, ?_⟩
  · exact prepareMesh_withQuads sampleDimensions sampleBlockMap sampleChunk []
  · decide
  · refine ⟨_, rebuildMesh_eq sampleDimensions sampleBlockMap _, rfl, ?_⟩
    decide

/-- C11, amended. For a standalone chunk (no manager attached) `rebuildFast()` and
`rebuildSlow()` do nothing: the chunk is left as it is, no request is made and no
mesh is rebuilt. Hence after `removeLocalBlock(c)`, for in-bounds `c`, the mesh
builder holds the geometry it held before the call; the geometry derived from the
current block array is there only after `rebuildMesh()` has been called. -/
theorem standalone_rebuild_noop (d : ChunkDimensions) (blockMap : BlockMap) (ch : Chunk)
    (hs : ch.mChunkManager = false) :
    ch.rebuildFast = ch ∧ ch.rebuildSlow = ch ∧
    ∀ c : Coordinate, areLocalCoordinatesInsideChunk d c = true →
      ∃ ch1 : Chunk, ch.removeLocalBlock d c = .ok ch1 ∧
        ch1.mMeshBuilder = ch.mMeshBuilder ∧
        ch1.mEvents = ch.mEvents ++
          [Event.guardAcquired, Event.cellWritten c "Air", Event.guardReleased] ∧
        ∃ ch2 ch0 : Chunk, ch1.rebuildMesh d blockMap = .ok ch2 ∧
          Chunk.prepareMesh d blockMap (ch1.withQuads []) = .ok ch0 ∧
          ch2.mMeshBuilder.quads = ch0.mMeshBuilder.quads := by
  refine ⟨rebuildFast_of_no_manager ch hs, rebuildSlow_of_no_manager ch hs, ?_⟩
  intro c hc
  unfold Chunk.removeLocalBlock
  rw [index_of_inside d _ c hc]
  refine ⟨_, rfl, ?_, ?_, ?_⟩
  · rw [rebuildFast_of_no_manager]
    exact hs
  · rw [rebuildFast_of_no_manager]
    exact hs
  · exact ⟨_, _, rebuildMesh_eq d blockMap _, rebuildMesh_eq d blockMap _, rfl⟩

/-- Witness of C11, amended: the standalone sample chunk with its mesh. -/
theorem standalone_rebuild_noop_witness :
    meshedChunk.mChunkManager = false ∧
    areLocalCoordinatesInsideChunk sampleDimensions ⟨1, 0, 1⟩ = true ∧
    ∃ ch1 : Chunk, meshedChunk.removeLocalBlock sampleDimensions ⟨1, 0, 1⟩ = .ok ch1 ∧
      ch1.mMeshBuilder = meshedChunk.mMeshBuilder ∧
      ch1.mEvents = meshedChunk.mEvents ++
        [Event.guardAcquired, Event.cellWritten ⟨1, 0, 1⟩ "Air", Event.guardReleased] ∧
      ∃ ch2 ch0 : Chunk, ch1.rebuildMesh sampleDimensions sampleBlockMap = .ok ch2 ∧
        Chunk.prepareMesh sampleDimensions sampleBlockMap (ch1.withQuads []) = .ok ch0 ∧
        ch2.mMeshBuilder.quads = ch0.mMeshBuilder.quads :=
  ⟨rfl, by decide,
   (standalone_rebuild_noop sampleDimensions sampleBlockMap meshedChunk rfl).2.2 ⟨1, 0, 1⟩
      (by decide)⟩

/-- C12. For a chunk attached to both a container and a manager, `rebuildFast()` makes
exactly one request to the manager, a fast one carrying the handle the container's
`findChunk` returns for this chunk, and `rebuildSlow()` makes exactly one request, a
slow one carrying that handle; neither changes the block array or the contents of
the mesh builder. Consequently `removeLocalBlock(c)`, for in-bounds `c`, makes
exactly one fast request and no slow request. -/
theorem attached_rebuild_requests (d : ChunkDimensions) (ch : Chunk) (parent : ChunkContainer)
    (hm : ch.mChunkManager = true) (hp : ch.mParentContainer = some parent) :
    (ch.rebuildFast.mEvents =
        ch.mEvents ++ [Event.managerRebuildFast (parent.findChunk ch.mChunkPosition)] ∧
      ch.rebuildFast.mChunkOfBlocks = ch.mChunkOfBlocks ∧
      ch.rebuildFast.mMeshBuilder = ch.mMeshBuilder) ∧
    (ch.rebuildSlow.mEvents =
        ch.mEvents ++ [Event.managerRebuildSlow (parent.findChunk ch.mChunkPosition)] ∧
      ch.rebuildSlow.mChunkOfBlocks = ch.mChunkOfBlocks ∧
      ch.rebuildSlow.mMeshBuilder = ch.mMeshBuilder) ∧
    ∀ c : Coordinate, areLocalCoordinatesInsideChunk d c = true →
      ∃ ch1 : Chunk, ch.removeLocalBlock d c = .ok ch1 ∧
        ch1.mEvents = ch.mEvents ++
          [Event.guardAcquired, Event.cellWritten c "Air", Event.guardReleased,
            Event.managerRebuildFast (parent.findChunk ch.mChunkPosition)] ∧
        (ch1.mEvents.drop ch.mEvents.length).count
          (Event.managerRebuildFast (parent.findChunk ch.mChunkPosition)) = 1 ∧
        ∀ handle, Event.managerRebuildSlow handle ∉ ch1.mEvents.drop ch.mEvents.length := by
  refine ⟨?_, ?_, ?_⟩
  · rw [rebuildFast_of_attached ch parent hm hp]
    exact ⟨rfl, rfl, rfl⟩
  · rw [rebuildSlow_of_attached ch parent hm hp]
    exact ⟨rfl, rfl, rfl⟩
  · intro c hc
    unfold Chunk.removeLocalBlock
    rw [index_of_inside d _ c hc]
    have hev : (Chunk.rebuildFast
        { ch with
          mChunkOfBlocks := ch.mChunkOfBlocks.set c ((ch.mChunkOfBlocks c).setBlockType "Air")
          mEvents := ch.mEvents ++
            [Event.guardAcquired, Event.cellWritten c "Air", Event.guardReleased] }).mEvents =
        ch.mEvents ++
          [Event.guardAcquired, Event.cellWritten c "Air", Event.guardReleased,
            Event.managerRebuildFast (parent.findChunk ch.mChunkPosition)] := by
      rw [rebuildFast_of_attached _ parent]
      · simp
      · exact hm
      · exact hp
    refine ⟨_, rfl, hev, ?_, ?_⟩
    · rw [hev, List.drop_left]
      simp [List.count_cons]
    · intro handle
      rw [hev, List.drop_left]
      simp

/-- Witness of C12: the left sample chunk, which its container holds in slot 0. -/
theorem attached_rebuild_requests_witness :
    leftChunk.mChunkManager = true ∧ leftChunk.mParentContainer = some sampleContainer ∧
    sampleContainer.findChunk leftChunk.mChunkPosition = some 0 ∧
    leftChunk.rebuildFast.mEvents = [Event.managerRebuildFast (some 0)] ∧
    leftChunk.rebuildSlow.mEvents = [Event.managerRebuildSlow (some 0)] :=
  ⟨rfl, rfl, by decide,
   (attached_rebuild_requests sampleDimensions leftChunk sampleContainer rfl rfl).1.1,
   (attached_rebuild_requests sampleDimensions leftChunk sampleContainer rfl rfl).2.1.1⟩

/-- C13. `rebuildMesh` is not incremental: whatever the mesh builder held before, the
quads it holds after `rebuildMesh()` are the quads `prepareMesh` produces on an
empty builder for the current block array; so a second `rebuildMesh()` right after
the first leaves the same quads as the first. -/
theorem rebuildMesh_not_incremental (d : ChunkDimensions) (blockMap : BlockMap) (ch : Chunk)
    (prior : List Quad) :
    ∃ ch1 ch0 ch2 : Chunk,
      Chunk.rebuildMesh d blockMap (ch.withQuads prior) = .ok ch1 ∧
      Chunk.prepareMesh d blockMap (ch.withQuads []) = .ok ch0 ∧
      ch1.mMeshBuilder.quads = ch0.mMeshBuilder.quads ∧
      ch1.mChunkOfBlocks = ch.mChunkOfBlocks ∧
      ch1.rebuildMesh d blockMap = .ok ch2 ∧
      ch2.mMeshBuilder.quads = ch1.mMeshBuilder.quads :=
  ⟨_, _, _, rebuildMesh_eq d blockMap _, rebuildMesh_eq d blockMap _, rfl, rfl,
    rebuildMesh_eq d blockMap _, rfl⟩

/-! ## Unsupported enumerators and array accesses -/

theorem isBlockTransparent_no_unchecked_access (d : ChunkDimensions) (blockMap : BlockMap)
    (ch : Chunk) (p : Coordinate) (dir : Direction) :
    ch.isBlockTransparent d blockMap p dir ≠ .error Fault.uncheckedArrayAccess := by
  cases hpos : localNearbyBlockPosition p dir with
  | ok n =>
    rw [isBlockTransparent_of_position d blockMap ch p n dir hpos]
    intro h
    cases h
  | error e =>
    have he : e = Fault.runtimeError "Unsupported Direction value was provided" := by
      cases dir <;> simp [localNearbyBlockPosition] at hpos <;> exact hpos.symm
    unfold Chunk.isBlockTransparent
    rw [hpos, he]
    intro h
    cases h

theorem doesBlockFaceHasTransparentNeighbor_no_unchecked_access (d : ChunkDimensions)
    (blockMap : BlockMap) (ch : Chunk) (f : Face) (p : Coordinate) :
    ch.doesBlockFaceHasTransparentNeighbor d blockMap f p ≠
      .error Fault.uncheckedArrayAccess := by
  cases f
  case Top => exact isBlockTransparent_no_unchecked_access d blockMap ch p Direction.Above
  case Left => exact isBlockTransparent_no_unchecked_access d blockMap ch p Direction.ToTheLeft
  case Right => exact isBlockTransparent_no_unchecked_access d blockMap ch p Direction.ToTheRight
  case Bottom => exact isBlockTransparent_no_unchecked_access d blockMap ch p Direction.Below
  case Front => exact isBlockTransparent_no_unchecked_access d blockMap ch p Direction.InFront
  case Back => exact isBlockTransparent_no_unchecked_access d blockMap ch p Direction.Behind
  case Counter =>
    intro h
    have h' : (Except.error (Fault.runtimeError "Unsupported Block::Face value was provided") :
        Except Fault Bool) = .error Fault.uncheckedArrayAccess := h
    cases h'

theorem createBlockMesh_withQuads (d : ChunkDimensions) (blockMap : BlockMap) (ch : Chunk)
    (pos : Coordinate) (hpos : areLocalCoordinatesInsideChunk d pos = true) (qs : List Quad) :
    Chunk.createBlockMesh d blockMap (ch.withQuads qs) pos =
      .ok (ch.withQuads (qs ++
        (List.range Face.Counter.toIndex).flatMap (ch.faceQuads d blockMap pos))) := by
  have hblock : (ch.withQuads qs).localBlock d pos = .ok (ch.mChunkOfBlocks pos) :=
    index_of_inside d _ _ hpos
  unfold Chunk.createBlockMesh
  rw [hblock]
  exact foldlM_withQuads ch _ _ _
    (fun i hi qs' => createBlockMeshFace_withQuads d blockMap ch _ hpos i
      (List.mem_range.1 hi) qs') qs

/-- C14. `localNearbyBlockPosition(p, d)` fails with an error if and only if `d` is
not one of the six directions `Above`, `Below`, `ToTheLeft`, `ToTheRight`, `InFront`
and `Behind`; for `None` and `Counter` it throws the runtime error of its `default`
branch. `doesBlockFaceHasTransparentNeighbor(f, p)` throws a runtime error when `f`
is not one of the six faces, that is for `Counter`. For each of the six faces and an
in-bounds `p`, and for each of the six directions, neither function fails. -/
theorem unsupported_enumerators_fail (d : ChunkDimensions) (blockMap : BlockMap) (ch : Chunk)
    (p : Coordinate) :
    (∀ dir : Direction, (∃ e, localNearbyBlockPosition p dir = .error e) ↔
      ¬ (dir = Direction.Above ∨ dir = Direction.Below ∨ dir = Direction.ToTheLeft ∨
        dir = Direction.ToTheRight ∨ dir = Direction.InFront ∨ dir = Direction.Behind)) ∧
    localNearbyBlockPosition p Direction.None =
      .error (Fault.runtimeError "Unsupported Direction value was provided") ∧
    localNearbyBlockPosition p Direction.Counter =
      .error (Fault.runtimeError "Unsupported Direction value was provided") ∧
    (∀ f : Face, ¬ f.isSupported →
      ch.doesBlockFaceHasTransparentNeighbor d blockMap f p =
        .error (Fault.runtimeError "Unsupported Block::Face value was provided")) ∧
    (∀ f : Face, f.isSupported → areLocalCoordinatesInsideChunk d p = true →
      ∃ b, ch.doesBlockFaceHasTransparentNeighbor d blockMap f p = .ok b) ∧
    (∀ dir : Direction,
      (dir = Direction.Above ∨ dir = Direction.Below ∨ dir = Direction.ToTheLeft ∨
        dir = Direction.ToTheRight ∨ dir = Direction.InFront ∨ dir = Direction.Behind) →
      ∃ n, localNearbyBlockPosition p dir = .ok n) := by
  refine ⟨?_, rfl, rfl, ?_, ?_, ?_⟩
  · intro dir
    cases dir <;> simp [localNearbyBlockPosition]
  · intro f hf
    have hc : f = Face.Counter := by
      unfold Face.isSupported at hf
      simpa using hf
    subst hc
    rfl
  · intro f hf hp
    exact ⟨_, doesBlockFaceHasTransparentNeighbor_eq d blockMap ch f p hf hp⟩
  · intro dir hdir
    rcases hdir with h | h | h | h | h | h <;> subst h <;> exact ⟨_, rfl⟩

/-- Witness of C14: the left face of the cell `(0, 0, 0)` of the left sample chunk, whose
neighbour no chunk owns, and the face value `Counter`. -/
theorem unsupported_enumerators_fail_witness :
    Face.Left.isSupported ∧ ¬ Face.Counter.isSupported ∧
    areLocalCoordinatesInsideChunk sampleDimensions ⟨0, 0, 0⟩ = true ∧
    (∃ b, leftChunk.doesBlockFaceHasTransparentNeighbor sampleDimensions sampleBlockMap
      Face.Left ⟨0, 0, 0⟩ = .ok b) ∧
    leftChunk.doesBlockFaceHasTransparentNeighbor sampleDimensions sampleBlockMap
      Face.Counter ⟨0, 0, 0⟩ =
        .error (Fault.runtimeError "Unsupported Block::Face value was provided") ∧
    (∃ n, localNearbyBlockPosition ⟨0, 0, 0⟩ Direction.Behind = .ok n) :=
  ⟨by decide, by decide, by decide,
   (unsupported_enumerators_fail sampleDimensions sampleBlockMap leftChunk ⟨0, 0, 0⟩).2.2.2.2.1
      Face.Left (by decide) (by decide),
   (unsupported_enumerators_fail sampleDimensions sampleBlockMap leftChunk ⟨0, 0, 0⟩).2.2.2.1
      Face.Counter (by decide),
   (unsupported_enumerators_fail sampleDimensions sampleBlockMap leftChunk ⟨0, 0, 0⟩).2.2.2.2.2
      Direction.Behind (by decide)⟩

/-- C15. In the embedding every call of `localBlock` with a coordinate outside the
bounds yields the fault of an unchecked array access, and only such a call does;
every caller hands a fault on unchanged. During `prepareMesh`, and so during
`rebuildMesh` and during `createBlockMesh` for every scanned cell, no such fault
arises: the scan indices, ranging over `[0, DIM)` on each axis, satisfy
`areLocalCoordinatesInsideChunk`; `doesBlockFaceHasTransparentNeighbor` and its
lambda, which look a neighbour up in the chunk's own array only after the bounds
predicate has accepted its position, never make an unchecked access, whatever
position and face they are given; and all three functions return normally. -/
theorem prepareMesh_accesses_in_bounds (d : ChunkDimensions) (blockMap : BlockMap)
    (ch : Chunk) :
    (∀ c : Coordinate, ch.localBlock d c = .error Fault.uncheckedArrayAccess ↔
      areLocalCoordinatesInsideChunk d c = false) ∧
    (∀ x y z : Nat, x < d.BLOCKS_PER_X_DIMENSION → y < d.BLOCKS_PER_Y_DIMENSION →
      z < d.BLOCKS_PER_Z_DIMENSION →
      areLocalCoordinatesInsideChunk d ⟨x, y, z⟩ = true ∧
      ∃ ch1, Chunk.prepareMeshCell d blockMap x y ch z = .ok ch1) ∧
    (∀ (p : Coordinate) (dir : Direction),
      ch.isBlockTransparent d blockMap p dir ≠ .error Fault.uncheckedArrayAccess) ∧
    (∀ (f : Face) (p : Coordinate),
      ch.doesBlockFaceHasTransparentNeighbor d blockMap f p ≠
        .error Fault.uncheckedArrayAccess) ∧
    (∀ p : Coordinate, areLocalCoordinatesInsideChunk d p = true →
      ∃ ch1, ch.createBlockMesh d blockMap p = .ok ch1) ∧
    (∃ ch1, ch.prepareMesh d blockMap = .ok ch1) ∧
    (∃ ch1, ch.rebuildMesh d blockMap = .ok ch1) := by
  refine ⟨?_, ?_, isBlockTransparent_no_unchecked_access d blockMap ch,
    doesBlockFaceHasTransparentNeighbor_no_unchecked_access d blockMap ch, ?_, ?_,
    ⟨_, rebuildMesh_eq d blockMap ch⟩⟩
  · intro c
    constructor
    · intro h
      by_contra hin
      have hin' : areLocalCoordinatesInsideChunk d c = true := by simpa using hin
      rw [Chunk.localBlock, index_of_inside d _ c hin'] at h
      cases h
    · intro h
      exact index_of_outside d _ c h
  · intro x y z hx hy hz
    refine ⟨?_, _, prepareMeshCell_withQuads d blockMap ch x y z hx hy hz ch.mMeshBuilder.quads⟩
    rw [areLocalCoordinatesInsideChunk_iff]
    simp only
    omega
  · intro p hp
    exact ⟨_, createBlockMesh_withQuads d blockMap ch p hp ch.mMeshBuilder.quads⟩
  · exact ⟨_, prepareMesh_withQuads d blockMap ch ch.mMeshBuilder.quads⟩

/-- Witness of C15: the left sample chunk and its corner cell `(1, 1, 1)`. -/
theorem prepareMesh_accesses_in_bounds_witness :
    areLocalCoordinatesInsideChunk sampleDimensions ⟨1, 1, 1⟩ = true ∧
    (∃ ch1, Chunk.prepareMeshCell sampleDimensions sampleBlockMap 1 1 leftChunk 1 = .ok ch1) ∧
    (∃ ch1, leftChunk.createBlockMesh sampleDimensions sampleBlockMap ⟨1, 1, 1⟩ = .ok ch1) :=
  ⟨by decide,
   ((prepareMesh_accesses_in_bounds sampleDimensions sampleBlockMap leftChunk).2.1 1 1 1
      (by decide) (by decide) (by decide)).2,
   (prepareMesh_accesses_in_bounds sampleDimensions sampleBlockMap leftChunk).2.2.2.2.1 ⟨1, 1, 1⟩
      (by decide)⟩

/-- C16. The two edge tests agree: for every local coordinate `c`,
`isLocalCoordinateOnChunkEdge(c)` is true if and only if
`directionOfBlockFacesInContactWithOtherChunk(c)` is not empty. -/
theorem isLocalCoordinateOnChunkEdge_iff_directions (d : ChunkDimensions) (c : Coordinate) :
    isLocalCoordinateOnChunkEdge d c = true ↔
      directionOfBlockFacesInContactWithOtherChunk d c ≠ [] := by
  rw [← List.length_pos, length_directionOfBlockFacesInContactWithOtherChunk]
  unfold isLocalCoordinateOnChunkEdge
  split_ifs <;> simp_all

/-! ## Columns of the terrain -/

/-- C20. Every column `generateChunkTerrain` produces is solid below and empty above:
given `BLOCK_SIZE > 0`, for two in-bounds cells of the same column, the first
lower than the second, if the lower cell holds "Air" then so does the upper one, and
if the upper cell holds "Grass" then so does the lower one. -/
theorem generateChunkTerrain_solid_below (d : ChunkDimensions) (t : TerrainParameters)
    (ch : Chunk) (c1 c2 : Coordinate) (hc1 : areLocalCoordinatesInsideChunk d c1 = true)
    (hc2 : areLocalCoordinatesInsideChunk d c2 = true) (hx : c1.x = c2.x) (hz : c1.z = c2.z)
    (hy : c1.y < c2.y) (hsize : 0 < t.BLOCK_SIZE) :
    (((ch.generateChunkTerrain d t).mChunkOfBlocks c1).blockId = "Air" →
      ((ch.generateChunkTerrain d t).mChunkOfBlocks c2).blockId = "Air") ∧
    (((ch.generateChunkTerrain d t).mChunkOfBlocks c2).blockId = "Grass" →
      ((ch.generateChunkTerrain d t).mChunkOfBlocks c1).blockId = "Grass") := by
  rw [generateChunkTerrain_blocks, if_pos hc1, generateChunkTerrain_blocks, if_pos hc2]
  have h1 := blockId_generatedBlock t ch c1
  have h2 := blockId_generatedBlock t ch c2
  rw [hx, hz] at h1
  have hlt : (c1.y : Rat) * t.BLOCK_SIZE < (c2.y : Rat) * t.BLOCK_SIZE :=
    mul_lt_mul_of_pos_right (by exact_mod_cast hy) hsize
  constructor
  · intro hair
    refine h2.2.2 (fun hpos => h1.2.1 hair ?_)
    linarith
  · intro hgrass
    refine h1.1.2 ?_
    have := h2.1.1 hgrass
    linarith

/-- Witness of C20: the chunk one block above the origin of the world, whose columns
have no height left: the lower and the upper cell of a column both hold "Air". -/
theorem generateChunkTerrain_solid_below_witness :
    areLocalCoordinatesInsideChunk sampleDimensions ⟨1, 0, 1⟩ = true ∧
    areLocalCoordinatesInsideChunk sampleDimensions ⟨1, 1, 1⟩ = true ∧
    0 < sampleTerrain.BLOCK_SIZE ∧
    ((raisedChunk.generateChunkTerrain sampleDimensions sampleTerrain).mChunkOfBlocks
        ⟨1, 0, 1⟩).blockId = "Air" ∧
    ((raisedChunk.generateChunkTerrain sampleDimensions sampleTerrain).mChunkOfBlocks
        ⟨1, 1, 1⟩).blockId = "Air" := by
  have hsize : 0 < sampleTerrain.BLOCK_SIZE := by norm_num [sampleTerrain]
  have hlow : ((raisedChunk.generateChunkTerrain sampleDimensions sampleTerrain).mChunkOfBlocks
      ⟨1, 0, 1⟩).blockId = "Air" := by
    rw [generateChunkTerrain_blocks, if_pos (by decide)]
    refine (blockId_generatedBlock _ _ _).2.2 ?_
    have hy : (raisedChunk.localToGlobalCoordinates ⟨1, 0, 1⟩).y = 1 := by decide
    norm_num [Chunk.columnHeight, sampleTerrain, hy]
  exact ⟨by decide, by decide, hsize, hlow,
    (generateChunkTerrain_solid_below sampleDimensions sampleTerrain raisedChunk ⟨1, 0, 1⟩
      ⟨1, 1, 1⟩ (by decide) (by decide) rfl rfl (by decide) hsize).1 hlow⟩

/-! ## The block catalog -/

theorem textureId_setIfPresent (s : Settings) (blockType : BlockTypeRecord) (setting : String)
    (blockFace f : Face) :
    (setIfPresent s blockType setting blockFace).textureId f =
      if s.isPresent setting = true ∧ f = blockFace then some (s.getTextureId setting)
      else blockType.textureId f := by
  unfold setIfPresent BlockTypeRecord.setTexture
  by_cases hp : s.isPresent setting = true <;> by_cases hf : f = blockFace <;> simp [hp, hf]

theorem textureId_readName (s : Settings) (blockType : BlockTypeRecord) :
    (readName s blockType).textureId = blockType.textureId := by
  unfold readName
  split_ifs <;> rfl

theorem textureId_readMainTexture (s : Settings) (blockType : BlockTypeRecord) (f : Face)
    (hf : f.isSupported) :
    (readMainTexture s blockType).textureId f =
      if s.isPresent "Texture" = true then some (s.getTextureId "Texture")
      else blockType.textureId f := by
  unfold readMainTexture
  have hrange : List.range Face.Counter.toIndex = [0, 1, 2, 3, 4, 5] := by decide
  by_cases hp : s.isPresent "Texture" = true
  · rw [if_pos hp, if_pos hp, hrange]
    cases f <;> first
      | exact absurd rfl hf
      | simp [BlockTypeRecord.setTexture, Face.ofIndex]
  · rw [if_neg hp, if_neg hp]

theorem textureId_readSides (s : Settings) (blockType : BlockTypeRecord) (f : Face) :
    (readSides s blockType).textureId f =
      if s.isPresent "TextureSide" = true ∧ f.isSide then some (s.getTextureId "TextureSide")
      else blockType.textureId f := by
  unfold readSides
  by_cases hp : s.isPresent "TextureSide" = true
  · rw [if_pos hp]
    cases f <;> simp [BlockTypeRecord.setTexture, Face.isSide, hp]
  · rw [if_neg hp, if_neg (fun h => hp h.1)]

theorem textureId_readOtherFaces (s : Settings) (blockType : BlockTypeRecord) (f : Face)
    (hf : f.isSupported) :
    (readOtherFaces s blockType).textureId f =
      if s.isPresent f.ownSetting = true then some (s.getTextureId f.ownSetting)
      else blockType.textureId f := by
  unfold readOtherFaces
  simp only [textureId_setIfPresent]
  cases f <;> first
    | exact absurd rfl hf
    | simp [Face.ownSetting]

theorem textureId_readOtherProperties (s : Settings) (blockType : BlockTypeRecord) :
    (readOtherProperties s blockType).textureId = blockType.textureId := by
  unfold readOtherProperties
  split_ifs <;> rfl

theorem textureId_readBlockType (fresh : BlockTypeRecord) (fileName : String) (s : Settings)
    (f : Face) (hf : f.isSupported) :
    (readBlockType fresh fileName s).textureId f =
      if s.isPresent f.ownSetting = true then some (s.getTextureId f.ownSetting)
      else if s.isPresent "TextureSide" = true ∧ f.isSide then
        some (s.getTextureId "TextureSide")
      else if s.isPresent "Texture" = true then some (s.getTextureId "Texture")
      else fresh.textureId f := by
  unfold readBlockType
  simp only
  rw [textureId_readOtherProperties, textureId_readOtherFaces s _ f hf, textureId_readSides,
    textureId_readMainTexture s _ f hf, textureId_readName]

theorem blockName_setIfPresent (s : Settings) (blockType : BlockTypeRecord) (setting : String)
    (blockFace : Face) :
    (setIfPresent s blockType setting blockFace).blockName = blockType.blockName := by
  unfold setIfPresent
  split_ifs <;> rfl

theorem blockName_readBlockType (fresh : BlockTypeRecord) (fileName : String) (s : Settings) :
    (readBlockType fresh fileName s).blockName =
      if s.isPresent "Name" = true then s.getString "Name" else "Unnamed Block" := by
  have hmain : ∀ bt : BlockTypeRecord, (readMainTexture s bt).blockName = bt.blockName := by
    intro bt
    unfold readMainTexture
    have hrange : List.range Face.Counter.toIndex = [0, 1, 2, 3, 4, 5] := by decide
    rw [hrange]
    split_ifs <;> rfl
  have hsides : ∀ bt : BlockTypeRecord, (readSides s bt).blockName = bt.blockName := by
    intro bt
    unfold readSides
    split_ifs <;> rfl
  have hfaces : ∀ bt : BlockTypeRecord, (readOtherFaces s bt).blockName = bt.blockName := by
    intro bt
    unfold readOtherFaces
    simp only [blockName_setIfPresent]
  have hprops : ∀ bt : BlockTypeRecord, (readOtherProperties s bt).blockName = bt.blockName := by
    intro bt
    unfold readOtherProperties
    split_ifs <;> rfl
  unfold readBlockType
  simp only
  rw [hprops, hfaces, hsides, hmain]
  unfold readName
  split_ifs <;> rfl

/-- C17. For one block `.cfg` file `BlockMap::parseDirectory` computes the texture id of
a face by precedence. For a side face (`Left`, `Right`, `Front`, `Back`) it is the
face's own setting if present, else "TextureSide" if present, else "Texture" if
present. For `Top` and `Bottom` it is "TextureTop" or "TextureBottom" if present,
else "Texture" if present, whatever "TextureSide" says. When none of these settings
is present the face keeps the entry of the default-constructed block type. The name
is "Unnamed Block" when "Name" is absent, and the value of "Name" otherwise. The
block type is stored in the catalog, under the value of "Id", if and only if the
file has the setting "Id"; without it the catalog is left as it was. -/
theorem parseBlockFile_precedence (fresh : BlockTypeRecord) (fileName : String)
    (s : Settings) (mBlockMap : BlockCatalog) :
    (∀ f : Face, f.isSide →
      (readBlockType fresh fileName s).textureId f =
        if s.isPresent f.ownSetting = true then some (s.getTextureId f.ownSetting)
        else if s.isPresent "TextureSide" = true then some (s.getTextureId "TextureSide")
        else if s.isPresent "Texture" = true then some (s.getTextureId "Texture")
        else fresh.textureId f) ∧
    (∀ f : Face, f = Face.Top ∨ f = Face.Bottom →
      (readBlockType fresh fileName s).textureId f =
        if s.isPresent f.ownSetting = true then some (s.getTextureId f.ownSetting)
        else if s.isPresent "Texture" = true then some (s.getTextureId "Texture")
        else fresh.textureId f) ∧
    ((readBlockType fresh fileName s).blockName =
      if s.isPresent "Name" = true then s.getString "Name" else "Unnamed Block") ∧
    (s.isPresent "Id" = false → parseBlockFile fresh fileName s mBlockMap = mBlockMap) ∧
    (s.isPresent "Id" = true →
      parseBlockFile fresh fileName s mBlockMap (s.getInt "Id") =
        some { readBlockType fresh fileName s with blockId := s.getInt "Id" } ∧
      ∀ key : Int, key ≠ s.getInt "Id" →
        parseBlockFile fresh fileName s mBlockMap key = mBlockMap key) := by
  refine ⟨?_, ?_, blockName_readBlockType fresh fileName s, ?_, ?_⟩
  · intro f hf
    have hsup : f.isSupported := by
      rcases hf with h | h | h | h <;> subst h <;> decide
    rw [textureId_readBlockType fresh fileName s f hsup]
    simp [hf]
  · intro f hf
    have hsup : f.isSupported := by
      rcases hf with h | h <;> subst h <;> decide
    have hside : ¬ f.isSide := by
      rcases hf with h | h <;> subst h <;> decide
    rw [textureId_readBlockType fresh fileName s f hsup]
    simp [hside]
  · intro hid
    unfold parseBlockFile
    simp [hid]
  · intro hid
    unfold parseBlockFile
    refine ⟨by simp [hid], fun key hkey => by simp [hid, hkey]⟩

/-- Witness of C17: a file with "Texture" 1, "TextureSide" 2, "TextureTop" 3 and
"TextureLeft" 4, without "Name" and without "Id". -/
theorem parseBlockFile_precedence_witness :
    Face.Left.isSide ∧ Face.Right.isSide ∧ sampleSettings.isPresent "Id" = false ∧
    (readBlockType freshBlockType "grass" sampleSettings).textureId Face.Left = some 4 ∧
    (readBlockType freshBlockType "grass" sampleSettings).textureId Face.Right = some 2 ∧
    (readBlockType freshBlockType "grass" sampleSettings).textureId Face.Top = some 3 ∧
    (readBlockType freshBlockType "grass" sampleSettings).textureId Face.Bottom = some 1 ∧
    (readBlockType freshBlockType "grass" sampleSettings).blockName = "Unnamed Block" ∧
    parseBlockFile freshBlockType "grass" sampleSettings (fun _ => none) = fun _ => none := by
  have h := parseBlockFile_precedence freshBlockType "grass" sampleSettings (fun _ => none)
  refine ⟨by decide, by decide, by decide, ?_, ?_, ?_, ?_, ?_, h.2.2.2.1 (by decide)⟩
  · rw [h.1 Face.Left (by decide)]
    decide
  · rw [h.1 Face.Right (by decide)]
    decide
  · rw [h.2.1 Face.Top (Or.inl rfl)]
    decide
  · rw [h.2.1 Face.Bottom (Or.inr rfl)]
    decide
  · rw [h.2.2.1]
    decide

/-! ## The fixed-update loop -/

theorem wrapInt64_of_isInt64 {n : Int} (h : isInt64 n) : wrapInt64 n = n := by
  unfold isInt64 at h
  unfold wrapInt64
  omega

theorem fixedUpdateLoop_enough_fuel (M : Int) (hM : 0 < M) (k : Nat) :
    ∀ (fuel : Nat) (t : Int) (deltas : List Int), ((k : Int) + 1) * M < t →
      t ≤ ((k : Int) + 2) * M → isInt64 t → k + 1 ≤ fuel →
      fixedUpdateLoop M fuel t deltas =
        some (t - ((k : Int) + 1) * M, deltas ++ List.replicate (k + 1) M) := by
  induction k with
  | zero =>
    intro fuel t deltas hlow hhigh hrep hfuel
    obtain ⟨fuel, rfl⟩ : ∃ f, fuel = f + 1 := ⟨fuel - 1, by omega⟩
    have hsub : wrapInt64 (t - M) = t - M := by
      apply wrapInt64_of_isInt64
      unfold isInt64 at hrep ⊢
      simp only [Nat.cast_zero, zero_add, one_mul] at hlow
      omega
    unfold fixedUpdateLoop
    simp only [hsub]
    simp only [Nat.cast_zero, zero_add, one_mul] at hlow hhigh ⊢
    rw [if_neg (by omega)]
    rfl
  | succ k ih =>
    intro fuel t deltas hlow hhigh hrep hfuel
    obtain ⟨fuel, rfl⟩ : ∃ f, fuel = f + 1 := ⟨fuel - 1, by omega⟩
    have hkM : 0 ≤ (k : Int) * M := mul_nonneg (Int.ofNat_nonneg k) (le_of_lt hM)
    have hlow' : (k : Int) * M + 2 * M < t := by
      have : (((k + 1 : Nat) : Int) + 1) * M = (k : Int) * M + 2 * M := by push_cast; ring
      rw [this] at hlow
      exact hlow
    have hhigh' : t ≤ (k : Int) * M + 3 * M := by
      have : (((k + 1 : Nat) : Int) + 2) * M = (k : Int) * M + 3 * M := by push_cast; ring
      rw [this] at hhigh
      exact hhigh
    have hsub : wrapInt64 (t - M) = t - M := by
      apply wrapInt64_of_isInt64
      unfold isInt64 at hrep ⊢
      omega
    unfold fixedUpdateLoop
    simp only [hsub]
    rw [if_pos (by omega)]
    have e1 : ((k : Int) + 1) * M = (k : Int) * M + M := by ring
    have e2 : ((k : Int) + 2) * M = (k : Int) * M + 2 * M := by ring
    rw [ih fuel (t - M) (deltas ++ [M]) (by rw [e1]; omega) (by rw [e2]; omega)
      (by unfold isInt64 at hrep ⊢; omega) (by omega)]
    have e3 : t - M - ((k : Int) + 1) * M = t - (((k + 1 : Nat) : Int) + 1) * M := by
      push_cast
      ring
    rw [e3, List.append_assoc]
    rfl

theorem fixedUpdateLoop_short_fuel (M : Int) (hM : 0 < M) (fuel : Nat) :
    ∀ (t : Int) (deltas : List Int), ((fuel : Int) + 1) * M < t → isInt64 t →
      fixedUpdateLoop M fuel t deltas = none := by
  induction fuel with
  | zero =>
    intro t deltas _ _
    rfl
  | succ fuel ih =>
    intro t deltas hlow hrep
    have hfM : 0 ≤ (fuel : Int) * M := mul_nonneg (Int.ofNat_nonneg fuel) (le_of_lt hM)
    have hlow' : (fuel : Int) * M + 2 * M < t := by
      have : (((fuel + 1 : Nat) : Int) + 1) * M = (fuel : Int) * M + 2 * M := by
        push_cast
        ring
      rw [this] at hlow
      exact hlow
    have hsub : wrapInt64 (t - M) = t - M := by
      apply wrapInt64_of_isInt64
      unfold isInt64 at hrep ⊢
      omega
    unfold fixedUpdateLoop
    simp only [hsub]
    rw [if_pos (by omega)]
    have e1 : ((fuel : Int) + 1) * M = (fuel : Int) * M + M := by ring
    exact ih (t - M) _ (by rw [e1]; omega) (by unfold isInt64 at hrep ⊢; omega)

theorem performFixedUpdate_long_frame (M t : Int) (hM : 0 < M) (hlong : M < t)
    (hrep : isInt64 t) :
    ∃ k : Nat, ((k : Int) + 1) * M < t ∧ t ≤ ((k : Int) + 2) * M ∧
      (∀ fuel : Nat, k + 1 ≤ fuel →
        performFixedUpdateAtLeastMinimalNumberOfTimes M fuel t =
          some (t - ((k : Int) + 1) * M, List.replicate (k + 1) M)) ∧
      (∀ fuel : Nat, fuel < k + 1 →
        performFixedUpdateAtLeastMinimalNumberOfTimes M fuel t = none) := by
  have hq1 : 1 ≤ (t - 1) / M := Int.le_ediv_of_mul_le hM (by omega)
  have hq2 : (t - 1) / M * M ≤ t - 1 := Int.ediv_mul_le (t - 1) (ne_of_gt hM)
  have hq3 : t - 1 < ((t - 1) / M + 1) * M := Int.lt_ediv_add_one_mul_self (t - 1) hM
  have hk : (((((t - 1) / M - 1).toNat : Nat) : Int)) = (t - 1) / M - 1 :=
    Int.toNat_of_nonneg (by omega)
  refine ⟨((t - 1) / M - 1).toNat, ?_, ?_, ?_, ?_⟩
  · rw [hk]
    have : ((t - 1) / M - 1 + 1) * M = (t - 1) / M * M := by ring
    omega
  · rw [hk]
    have : ((t - 1) / M - 1 + 2) * M = ((t - 1) / M + 1) * M := by ring
    omega
  · intro fuel hfuel
    unfold performFixedUpdateAtLeastMinimalNumberOfTimes
    rw [if_pos hlong]
    have h := fixedUpdateLoop_enough_fuel M hM ((t - 1) / M - 1).toNat fuel t []
      (by rw [hk]
          have : ((t - 1) / M - 1 + 1) * M = (t - 1) / M * M := by ring
          omega)
      (by rw [hk]
          have : ((t - 1) / M - 1 + 2) * M = ((t - 1) / M + 1) * M := by ring
          omega)
      hrep hfuel
    rw [h, List.nil_append]
  · intro fuel hfuel
    unfold performFixedUpdateAtLeastMinimalNumberOfTimes
    rw [if_pos hlong]
    apply fixedUpdateLoop_short_fuel M hM fuel t [] _ hrep
    have hle : (fuel : Int) + 1 ≤ (t - 1) / M := by omega
    have hmul : ((fuel : Int) + 1) * M ≤ (t - 1) / M * M :=
      mul_le_mul_of_nonneg_right hle (le_of_lt hM)
    omega

/-- C18. For every elapsed frame time `t`, in particular every non-negative one, and
a positive `MINIMAL_TIME_PER_FIXED_UPDATE`,
`performFixedUpdateAtLeastMinimalNumberOfTimes(t)` terminates: with enough fuel it returns, always with the same result, and with less
fuel it only runs out. It calls `fixedUpdate` at least once, and no delta it passes
exceeds `MINIMAL_TIME_PER_FIXED_UPDATE`; when `t` is greater than the minimal time
every call receives exactly the minimal time, and otherwise there is exactly one
call, with the delta `t`. -/
theorem performFixedUpdate_terminates (M t : Int) (hM : 0 < M) (hrep : isInt64 t) :
    ∃ (enough : Nat) (remaining : Int) (deltas : List Int),
      (∀ fuel : Nat, enough ≤ fuel →
        performFixedUpdateAtLeastMinimalNumberOfTimes M fuel t = some (remaining, deltas)) ∧
      (∀ fuel : Nat, fuel < enough →
        performFixedUpdateAtLeastMinimalNumberOfTimes M fuel t = none) ∧
      1 ≤ deltas.length ∧
      (∀ delta ∈ deltas, delta ≤ M) ∧
      (M < t → ∀ delta ∈ deltas, delta = M) ∧
      (t ≤ M → deltas = [t]) := by
  by_cases hlong : M < t
  · obtain ⟨k, -, -, hsome, hnone⟩ := performFixedUpdate_long_frame M t hM hlong hrep
    refine ⟨k + 1, _, _, hsome, hnone, by simp, ?_, ?_, ?_⟩
    · intro delta hdelta
      rw [List.eq_of_mem_replicate hdelta]
    · intro _ delta hdelta
      exact List.eq_of_mem_replicate hdelta
    · intro hle
      omega
  · refine ⟨0, t, [t], ?_, ?_, by simp, ?_, ?_, ?_⟩
    · intro fuel _
      unfold performFixedUpdateAtLeastMinimalNumberOfTimes
      rw [if_neg hlong]
    · intro fuel hfuel
      omega
    · intro delta hdelta
      rw [List.mem_singleton] at hdelta
      omega
    · intro h
      exact absurd h hlong
    · intro _
      rfl

/-- Witness of C18: a frame of 40 milliseconds with the minimal time of 16666
microseconds: two fixed updates of 16666 microseconds each, 6668 microseconds left. -/
theorem performFixedUpdate_terminates_witness :
    0 < sampleMinimalTime ∧ (0 : Int) ≤ 40000 ∧ isInt64 40000 ∧
    performFixedUpdateAtLeastMinimalNumberOfTimes sampleMinimalTime 2 40000 =
      some (6668, [16666, 16666]) ∧
    performFixedUpdateAtLeastMinimalNumberOfTimes sampleMinimalTime 1 40000 = none ∧
    ∃ (enough : Nat) (remaining : Int) (deltas : List Int),
      (∀ fuel : Nat, enough ≤ fuel →
        performFixedUpdateAtLeastMinimalNumberOfTimes sampleMinimalTime fuel 40000 =
          some (remaining, deltas)) ∧
      (∀ fuel : Nat, fuel < enough →
        performFixedUpdateAtLeastMinimalNumberOfTimes sampleMinimalTime fuel 40000 = none) ∧
      1 ≤ deltas.length ∧
      (∀ delta ∈ deltas, delta ≤ sampleMinimalTime) ∧
      (sampleMinimalTime < 40000 → ∀ delta ∈ deltas, delta = sampleMinimalTime) ∧
      ((40000 : Int) ≤ sampleMinimalTime → deltas = [40000]) :=
  ⟨by decide, by decide, by decide, by decide, by decide,
   performFixedUpdate_terminates sampleMinimalTime 40000 (by decide) (by decide)⟩

theorem ceil_div_of_between (M t : Int) (k : Nat) (hM : 0 < M)
    (hlow : ((k : Int) + 1) * M < t) (hhigh : t ≤ ((k : Int) + 2) * M) :
    ⌈(t : Rat) / (M : Rat)⌉ = (k : Int) + 2 := by
  have hMq : (0 : Rat) < (M : Rat) := by exact_mod_cast hM
  rw [Int.ceil_eq_iff]
  constructor
  · rw [lt_div_iff₀ hMq]
    have h : ((((k : Int) + 1) * M : Int) : Rat) < (t : Rat) := by exact_mod_cast hlow
    push_cast at h ⊢
    linarith
  · rw [div_le_iff₀ hMq]
    have h : (t : Rat) ≤ ((((k : Int) + 2) * M : Int) : Rat) := by exact_mod_cast hhigh
    push_cast at h ⊢
    linarith

theorem sum_replicate_int (n : Nat) (M : Int) : (List.replicate n M).sum = (n : Int) * M := by
  induction n with
  | zero => simp
  | succ n ih =>
    rw [List.replicate_succ, List.sum_cons, ih]
    push_cast
    ring

/-- C19. Time accounting of the fixed-update loop over the integer microseconds of
`sf::Time`, with `M = MINIMAL_TIME_PER_FIXED_UPDATE > 0`. For every elapsed time `t`,
in particular every `t >= 0`, the sum `S` of the deltas passed to `fixedUpdate`
satisfies `0 <= t - S <= M`, and `S == t` when `t <= M`. When `t > M` the number of
calls is `ceil(t / M) - 1`, and the value left in `frameTimeElapsed` is the
unsimulated remainder `t - S`, which lies in `(0, M]`. The remainder is discarded:
in `Game::run` the next iteration overwrites `frameTimeElapsed`, so the deltas of
the next frame are those of its own elapsed time alone. -/
theorem fixedUpdate_time_accounting (M t : Int) (hM : 0 < M) (hrep : isInt64 t) :
    ∃ (enough : Nat) (remaining : Int) (deltas : List Int),
      (∀ fuel : Nat, enough ≤ fuel →
        performFixedUpdateAtLeastMinimalNumberOfTimes M fuel t = some (remaining, deltas)) ∧
      0 ≤ t - deltas.sum ∧ t - deltas.sum ≤ M ∧
      (t ≤ M → deltas.sum = t) ∧
      (M < t → (deltas.length : Int) = ⌈(t : Rat) / (M : Rat)⌉ - 1 ∧
        remaining = t - deltas.sum ∧ 0 < remaining ∧ remaining ≤ M) ∧
      (∀ (fuel : Nat) (before next : Int) (result : Int × List Int), enough ≤ fuel →
        performFixedUpdateAtLeastMinimalNumberOfTimes M fuel next = some result →
        Game.run M fuel [t, next] before [] = some (result.1, deltas ++ result.2)) := by
  have hrun : ∀ (fuel : Nat) (remaining : Int) (deltas : List Int),
      performFixedUpdateAtLeastMinimalNumberOfTimes M fuel t = some (remaining, deltas) →
      ∀ (before next : Int) (result : Int × List Int),
        performFixedUpdateAtLeastMinimalNumberOfTimes M fuel next = some result →
        Game.run M fuel [t, next] before [] = some (result.1, deltas ++ result.2) := by
    intro fuel remaining deltas h before next result hnext
    simp [Game.run, h, hnext]
  by_cases hlong : M < t
  · obtain ⟨k, hlow, hhigh, hsome, -⟩ := performFixedUpdate_long_frame M t hM hlong hrep
    have hsum : (List.replicate (k + 1) M).sum = ((k : Int) + 1) * M := by
      rw [sum_replicate_int]
      push_cast
      ring
    have e2 : ((k : Int) + 2) * M = ((k : Int) + 1) * M + M := by ring
    refine ⟨k + 1, _, _, hsome, ?_, ?_, ?_, ?_, ?_⟩
    · rw [hsum]
      omega
    · rw [hsum]
      omega
    · intro hle
      omega
    · intro _
      refine ⟨?_, ?_, ?_, ?_⟩
      · rw [ceil_div_of_between M t k hM hlow hhigh, List.length_replicate]
        push_cast
        ring
      · rw [hsum]
      · omega
      · omega
    · intro fuel before next result hfuel hnext
      exact hrun fuel _ _ (hsome fuel hfuel) before next result hnext
  · have hperform : ∀ fuel : Nat,
        performFixedUpdateAtLeastMinimalNumberOfTimes M fuel t = some (t, [t]) := by
      intro fuel
      unfold performFixedUpdateAtLeastMinimalNumberOfTimes
      rw [if_neg hlong]
    refine ⟨0, t, [t], fun fuel _ => hperform fuel, by simp, by simp; omega, by simp, ?_, ?_⟩
    · intro h
      exact absurd h hlong
    · intro fuel before next result _ hnext
      exact hrun fuel _ _ (hperform fuel) before next result hnext

/-- Witness of C19: a frame of 40 milliseconds, then one of 10 milliseconds, with the
minimal time of 16666 microseconds. The first frame simulates 33332 microseconds in
`ceil(40000 / 16666) - 1 = 2` calls and leaves 6668; the second frame simulates its
own 10000 microseconds and nothing of what the first left. -/
theorem fixedUpdate_time_accounting_witness :
    0 < sampleMinimalTime ∧ isInt64 40000 ∧
    performFixedUpdateAtLeastMinimalNumberOfTimes sampleMinimalTime 2 40000 =
      some (6668, [16666, 16666]) ∧
    Game.run sampleMinimalTime 2 [40000, 10000] 0 [] = some (10000, [16666, 16666, 10000]) ∧
    ∃ (enough : Nat) (remaining : Int) (deltas : List Int),
      (∀ fuel : Nat, enough ≤ fuel →
        performFixedUpdateAtLeastMinimalNumberOfTimes sampleMinimalTime fuel 40000 =
          some (remaining, deltas)) ∧
      0 ≤ 40000 - deltas.sum ∧ 40000 - deltas.sum ≤ sampleMinimalTime ∧
      (sampleMinimalTime < 40000 →
        (deltas.length : Int) = ⌈((40000 : Int) : Rat) / (sampleMinimalTime : Rat)⌉ - 1 ∧
        remaining = 40000 - deltas.sum ∧ 0 < remaining ∧ remaining ≤ sampleMinimalTime) := by
  obtain ⟨enough, remaining, deltas, h1, h2, h3, -, h5, -⟩ :=
    fixedUpdate_time_accounting sampleMinimalTime 40000 (by decide) (by decide)
  exact ⟨by decide, by decide, by decide, by decide, enough, remaining, deltas, h1, h2, h3, h5⟩

/-! ## The player -/

theorem doesPlayerCollideWithBlock_eq (env : PlayerEnvironment) (player : Player)
    (coordinates : Coordinate) :
    player.doesPlayerCollideWithBlock env coordinates =
      env.intersect player.collisionBox (cellBox env coordinates) := rfl

/-- C21. `Player::tryPlaceBlock` makes a placement call if and only if a block is
highlighted and the box of the target cell, a cube with the edge `BLOCK_SIZE` at the
position of the cell, does not intersect the collision box of the player. The call
is exactly one `tryToPlaceBlock` of `Dirt`, at the coordinate next to the highlighted
block in the direction of the highlighted face, with the list
`BLOCKS_THAT_MIGHT_BE_OVERPLACED`; no other call is made and nothing else in the
player changes. When no block is highlighted or the target cell intersects the
player, no call is made. Likewise `Player::tryDestroyBlock` makes exactly one call,
`removeWorldBlock` at the highlighted position, if and only if a block is
highlighted, and no call otherwise. -/
theorem player_edits (env : PlayerEnvironment) (player : Player) :
    ((player.tryPlaceBlock env).mWorldEdits = player.mWorldEdits ++
      (if player.mSelectedBlock.isAnyBlockHighlighted = true ∧
          env.intersect player.collisionBox (cellBox env (player.targetCell env)) = false then
        [WorldEdit.tryToPlaceBlock BlockId.Dirt (player.targetCell env)
          env.BLOCKS_THAT_MIGHT_BE_OVERPLACED]
      else [])) ∧
    ((∃ edit, (player.tryPlaceBlock env).mWorldEdits = player.mWorldEdits ++ [edit]) ↔
      (player.mSelectedBlock.isAnyBlockHighlighted = true ∧
        env.intersect player.collisionBox (cellBox env (player.targetCell env)) = false)) ∧
    ((player.tryPlaceBlock env).mWorldEdits = player.mWorldEdits ↔
      (player.mSelectedBlock.isAnyBlockHighlighted = false ∨
        env.intersect player.collisionBox (cellBox env (player.targetCell env)) = true)) ∧
    ((player.tryPlaceBlock env).mSelectedBlock = player.mSelectedBlock ∧
      (player.tryPlaceBlock env).mAABB = player.mAABB ∧
      (player.tryPlaceBlock env).mPosition = player.mPosition) ∧
    (player.tryDestroyBlock.mWorldEdits = player.mWorldEdits ++
      (if player.mSelectedBlock.isAnyBlockHighlighted = true then
        [WorldEdit.removeWorldBlock player.mSelectedBlock.blockPosition]
      else [])) ∧
    ((∃ edit, player.tryDestroyBlock.mWorldEdits = player.mWorldEdits ++ [edit]) ↔
      player.mSelectedBlock.isAnyBlockHighlighted = true) := by
  have hplace : (player.tryPlaceBlock env).mWorldEdits = player.mWorldEdits ++
      (if player.mSelectedBlock.isAnyBlockHighlighted = true ∧
          env.intersect player.collisionBox (cellBox env (player.targetCell env)) = false then
        [WorldEdit.tryToPlaceBlock BlockId.Dirt (player.targetCell env)
          env.BLOCKS_THAT_MIGHT_BE_OVERPLACED]
      else []) := by
    unfold Player.tryPlaceBlock
    simp only [doesPlayerCollideWithBlock_eq]
    by_cases hh : player.mSelectedBlock.isAnyBlockHighlighted = true
    · cases hi : env.intersect player.collisionBox (cellBox env (player.targetCell env))
      · have hi' : env.intersect player.collisionBox
            (cellBox env (env.coordinateInGivenDirection player.mSelectedBlock.blockPosition
              (env.directionOfFace player.mSelectedBlock.blockFace))) = false := hi
        simp [hh, hi', Player.targetCell]
      · have hi' : env.intersect player.collisionBox
            (cellBox env (env.coordinateInGivenDirection player.mSelectedBlock.blockPosition
              (env.directionOfFace player.mSelectedBlock.blockFace))) = true := hi
        simp [hh, hi']
    · simp [hh]
  have hdestroy : player.tryDestroyBlock.mWorldEdits = player.mWorldEdits ++
      (if player.mSelectedBlock.isAnyBlockHighlighted = true then
        [WorldEdit.removeWorldBlock player.mSelectedBlock.blockPosition]
      else []) := by
    unfold Player.tryDestroyBlock
    by_cases hh : player.mSelectedBlock.isAnyBlockHighlighted = true
    · simp [hh]
    · simp [hh]
  refine ⟨hplace, ?_, ?_, ?_, hdestroy, ?_⟩
  · rw [hplace]
    split_ifs with hc
    · exact ⟨fun _ => hc, fun _ => ⟨_, rfl⟩⟩
    · constructor
      · rintro ⟨edit, h⟩
        simp at h
      · intro h
        exact absurd h hc
  · rw [hplace]
    split_ifs with hc
    · constructor
      · intro h
        simp at h
      · rintro (h | h)
        · rw [hc.1] at h
          cases h
        · rw [hc.2] at h
          cases h
    · constructor
      · intro _
        by_cases hh : player.mSelectedBlock.isAnyBlockHighlighted = true
        · right
          by_contra hi
          exact hc ⟨hh, by simpa using hi⟩
        · left
          simpa using hh
      · intro _
        simp
  · unfold Player.tryPlaceBlock
    dsimp only
    split_ifs <;> exact ⟨rfl, rfl, rfl⟩
  · rw [hdestroy]
    split_ifs with hh
    · exact ⟨fun _ => hh, fun _ => ⟨_, rfl⟩⟩
    · constructor
      · rintro ⟨edit, h⟩
        simp at h
      · intro h
        exact absurd h hh

/-- Witness of C21: the sample player highlights the left face of the block at
`(3, 0, 0)`; the cell `(2, 0, 0)` next to it is clear of the player, so one
`tryToPlaceBlock` is made there. The same player highlighting the top face of the
block under the feet makes no call, since the cell `(0, 0, 0)` holds the player. -/
theorem player_edits_witness :
    samplePlayer.mSelectedBlock.isAnyBlockHighlighted = true ∧
    samplePlayer.targetCell sampleEnvironment = ⟨2, 0, 0⟩ ∧
    blockedPlayer.targetCell sampleEnvironment = ⟨0, 0, 0⟩ ∧
    (samplePlayer.tryPlaceBlock sampleEnvironment).mWorldEdits =
      [WorldEdit.tryToPlaceBlock BlockId.Dirt ⟨2, 0, 0⟩ [BlockId.other 0, BlockId.Water]] ∧
    (blockedPlayer.tryPlaceBlock sampleEnvironment).mWorldEdits = [] ∧
    samplePlayer.tryDestroyBlock.mWorldEdits = [WorldEdit.removeWorldBlock ⟨3, 0, 0⟩] := by
  have t1 : samplePlayer.targetCell sampleEnvironment = ⟨2, 0, 0⟩ := by decide
  have t2 : blockedPlayer.targetCell sampleEnvironment = ⟨0, 0, 0⟩ := by decide
  have c1 : sampleEnvironment.intersect samplePlayer.collisionBox
      (cellBox sampleEnvironment ⟨2, 0, 0⟩) = false := by
    norm_num [sampleEnvironment, sampleIntersect, sampleLeast, samplePlayer,
      Player.collisionBox, cellBox]
  have c2 : sampleEnvironment.intersect blockedPlayer.collisionBox
      (cellBox sampleEnvironment ⟨0, 0, 0⟩) = true := by
    norm_num [sampleEnvironment, sampleIntersect, sampleLeast, samplePlayer, blockedPlayer,
      Player.collisionBox, cellBox]
  have h1 := (player_edits sampleEnvironment samplePlayer).1
  have h2 := (player_edits sampleEnvironment blockedPlayer).1
  have h3 := (player_edits sampleEnvironment samplePlayer).2.2.2.2.1
  rw [t1, c1] at h1
  rw [t2, c2] at h2
  refine ⟨rfl, t1, t2, ?_, ?_, ?_⟩
  · rw [h1]
    rfl
  · rw [h2]
    rfl
  · rw [h3]
    rfl

/-- C22. After every call of `Player::updateInformationIfPlayerIsInWater`, whatever the
two flags were before and whatever the chunk container returns,
`mArePlayerEyesInWater` implies `mIsPlayerInWater`. The in-water flag becomes what
`doesPlayerTouchesWater` returns; the eyes-in-water flag is computed anew, from the
box of the head above the eyes, only when the collision box of the player touches
a `Water` block, and otherwise it is cleared together with the in-water flag. -/
theorem eyes_in_water_implies_in_water (env : PlayerEnvironment) (player : Player)
    (nonAirBlocksItTouches : AABB → List BlockId) :
    ((player.updateInformationIfPlayerIsInWater env nonAirBlocksItTouches).mArePlayerEyesInWater
        = true →
      (player.updateInformationIfPlayerIsInWater env nonAirBlocksItTouches).mIsPlayerInWater
        = true) ∧
    ((player.updateInformationIfPlayerIsInWater env nonAirBlocksItTouches).mIsPlayerInWater =
      player.doesPlayerTouchesWater nonAirBlocksItTouches) ∧
    (player.doesPlayerTouchesWater nonAirBlocksItTouches = true →
      (player.updateInformationIfPlayerIsInWater env nonAirBlocksItTouches).mArePlayerEyesInWater
        = player.doesItCollideWithGivenNonAirBlock (player.aabbHeadAboveEyes env)
            nonAirBlocksItTouches BlockId.Water) ∧
    (player.doesPlayerTouchesWater nonAirBlocksItTouches = false →
      (player.updateInformationIfPlayerIsInWater env nonAirBlocksItTouches).mArePlayerEyesInWater
        = false ∧
      (player.updateInformationIfPlayerIsInWater env nonAirBlocksItTouches).mIsPlayerInWater
        = false) := by
  unfold Player.updateInformationIfPlayerIsInWater
  cases htouch : player.doesPlayerTouchesWater nonAirBlocksItTouches
  · refine ⟨?_, rfl, ?_, ?_⟩
    · intro h
      cases h
    · intro h
      cases h
    · intro _
      exact ⟨rfl, rfl⟩
  · refine ⟨?_, rfl, ?_, ?_⟩
    · intro _
      rfl
    · intro _
      rfl
    · intro h
      cases h

/-- Witness of C22: the sample player, whose eyes flag is set and whose in-water flag
is not, in water that reaches the body but not the head; afterwards the player is
in water and the eyes are not. -/
theorem eyes_in_water_implies_in_water_witness :
    samplePlayer.mArePlayerEyesInWater = true ∧ samplePlayer.mIsPlayerInWater = false ∧
    samplePlayer.doesPlayerTouchesWater shallowWater = true ∧
    (samplePlayer.updateInformationIfPlayerIsInWater sampleEnvironment
      shallowWater).mIsPlayerInWater = true ∧
    (samplePlayer.updateInformationIfPlayerIsInWater sampleEnvironment
      shallowWater).mArePlayerEyesInWater = false := by
  have htouch : samplePlayer.doesPlayerTouchesWater shallowWater = true := by
    norm_num [Player.doesPlayerTouchesWater, Player.doesItCollideWithGivenNonAirBlock,
      shallowWater, samplePlayer, Player.collisionBox]
  have hhead : samplePlayer.doesItCollideWithGivenNonAirBlock
      (samplePlayer.aabbHeadAboveEyes sampleEnvironment) shallowWater BlockId.Water = false := by
    norm_num [Player.doesItCollideWithGivenNonAirBlock, shallowWater, samplePlayer,
      Player.aabbHeadAboveEyes, AABB.ofSize, AABB.updatePosition, AABB.collisionBoxSize,
      sampleEnvironment]
    decide
  have h := eyes_in_water_implies_in_water sampleEnvironment samplePlayer shallowWater
  refine ⟨rfl, rfl, htouch, ?_, ?_⟩
  · rw [h.2.1, htouch]
  · rw [h.2.2.1 htouch, hhead]

end MakeFarm
